import Mathlib

set_option maxHeartbeats 1000000

/-!
Verification of a YAML "Pod" document validator.

The repository holds two variants of the same schema validator over a
generic YAML node tree (gopkg.in/yaml.v3):

* `src/main.go`        - fail-fast: each rule returns the first error.
* `src/unnamed/part_000` - accumulate-all: each rule appends every error
  to a shared context and a final `flush` prints them all.

Both are embedded below over a common tree type `Node` mirroring the
fields of `yaml.Node` that the validators read: `Kind`, `Line`, `Tag`,
`Value`, `Content` (a mapping's content is modelled as a list of
key/value pairs, a sequence's as a list of elements).
-/

/-- A YAML tree node, as consumed by both validators: one of mapping,
sequence or scalar, each carrying its source line; scalars carry the
inferred tag and the raw text value. -/
inductive Node : Type where
  | mapping (line : Nat) (content : List (Node × Node))
  | sequence (line : Nat) (content : List Node)
  | scalar (line : Nat) (tag : String) (value : String)

/-- `Line` field of a node. -/
def Node.line : Node → Nat
  | .mapping l _ => l
  | .sequence l _ => l
  | .scalar l _ _ => l

/-- `Tag` field: empty for non-scalars (never read for them). -/
def Node.tag : Node → String
  | .scalar _ t _ => t
  | _ => ""

/-- `Value` field: empty for non-scalars, as in yaml.v3. -/
def Node.value : Node → String
  | .scalar _ _ v => v
  | _ => ""

/-- Key/value pairs of a mapping node's `Content`. -/
def Node.pairs : Node → List (Node × Node)
  | .mapping _ c => c
  | _ => []

/-- Elements of a sequence node's `Content`. -/
def Node.elems : Node → List Node
  | .sequence _ c => c
  | _ => []

/-- `Kind == yaml.MappingNode`. -/
def Node.isMapping : Node → Bool
  | .mapping _ _ => true
  | _ => false

/-- `Kind == yaml.SequenceNode`. -/
def Node.isSequence : Node → Bool
  | .sequence _ _ => true
  | _ => false

/-- `Kind == yaml.ScalarNode`. -/
def Node.isScalar : Node → Bool
  | .scalar _ _ _ => true
  | _ => false

/-- `getField` in main.go and `field` in part_000 (identical code):
scan the mapping's pairs in order, return the first value whose key is
a scalar equal to `key`; not found when the receiver is not a mapping. -/
def field (obj : Node) (key : String) : Option Node :=
  match obj with
  | .mapping _ content =>
      (content.find? fun p => p.1.isScalar && p.1.value == key).map Prod.snd
  | _ => none

/-- `isStr` in part_000; main.go inlines the same two tests
`Kind == ScalarNode && Tag == "!!str"`. -/
def isStr (n : Node) : Bool := n.isScalar && n.tag == "!!str"

/-- `isInt` in part_000: `Kind == ScalarNode && Tag == "!!int"`. -/
def isInt (n : Node) : Bool := n.isScalar && n.tag == "!!int"

/-- Go `unicode.IsSpace`, written over the code point. -/
def goIsSpace (c : Char) : Bool :=
  c.toNat == 32 || c.toNat == 9 || c.toNat == 10 || c.toNat == 11 ||
  c.toNat == 12 || c.toNat == 13 || c.toNat == 133 || c.toNat == 160 ||
  c.toNat == 5760 || (8192 ≤ c.toNat && c.toNat ≤ 8202) ||
  c.toNat == 8232 || c.toNat == 8233 || c.toNat == 8239 ||
  c.toNat == 8287 || c.toNat == 12288

/-- Go `strings.TrimSpace`: drop leading and trailing white space. -/
def trimSpace (s : String) : String :=
  ⟨((s.data.dropWhile goIsSpace).reverse.dropWhile goIsSpace).reverse⟩

/-- ASCII decimal digit, code points 48-57. -/
def isDigitCh (c : Char) : Bool := 48 ≤ c.toNat && c.toNat ≤ 57

/-- Value of a digit string read in base 10. -/
def digitsToNat (l : List Char) : Nat :=
  l.foldl (fun a c => a * 10 + (c.toNat - 48)) 0

/-- A non-empty all-digit run and its value, else `none`. -/
def parseDigits (l : List Char) : Option Nat :=
  if l.isEmpty then none
  else if l.all isDigitCh then some (digitsToNat l) else none

/-- Go `strconv.Atoi`: optional sign, then base-10 digits, error on
anything else and on 64-bit overflow (both validators run on 64-bit). -/
def atoi (s : String) : Option Int :=
  match s.data with
  | [] => none
  | c :: rest =>
    if c.toNat == 43 then
      (parseDigits rest).bind fun v =>
        if v ≤ 9223372036854775807 then some (Int.ofNat v) else none
    else if c.toNat == 45 then
      (parseDigits rest).bind fun v =>
        if v ≤ 9223372036854775808 then some (-(Int.ofNat v)) else none
    else
      (parseDigits (c :: rest)).bind fun v =>
        if v ≤ 9223372036854775807 then some (Int.ofNat v) else none

/-- Lower-case one character (ASCII range of `strings.ToLower`; both
validators only compare the result against ASCII literals). -/
def lowerCh (c : Char) : Char :=
  if 65 ≤ c.toNat && c.toNat ≤ 90 then Char.ofNat (c.toNat + 32) else c

/-- `strings.ToLower` on the ASCII range. -/
def toLowerA (s : String) : String := ⟨s.data.map lowerCh⟩

/-- Upper-case one character (ASCII range of `strings.ToUpper`). -/
def upperCh (c : Char) : Char :=
  if 97 ≤ c.toNat && c.toNat ≤ 122 then Char.ofNat (c.toNat - 32) else c

/-- `strings.ToUpper` on the ASCII range. -/
def toUpperA (s : String) : String := ⟨s.data.map upperCh⟩

/-- Character-list core of `strings.HasPrefix`. -/
def startsWithL : List Char → List Char → Bool
  | _, [] => true
  | [], _ :: _ => false
  | c :: cs, p :: ps => c == p && startsWithL cs ps

/-- Go `strings.HasPrefix s p`. -/
def startsWithS (s p : String) : Bool := startsWithL s.data p.data

/-- The segment of `l` after its last slash (all of `l` when there is
no slash), as `s[strings.LastIndex(s, "/")+1:]` computes it. -/
def afterLastSlash (l : List Char) : List Char :=
  (l.reverse.takeWhile fun c => !(c.toNat == 47)).reverse

/-- Go `strings.Contains s c` for a one-character needle with code `n`. -/
def containsCh (l : List Char) (n : Nat) : Bool := l.any fun c => c.toNat == n

/-- `[a-z0-9]`, one literal character of the snake-case pattern. -/
def isSnakeChar (c : Char) : Bool :=
  (97 ≤ c.toNat && c.toNat ≤ 122) || (48 ≤ c.toNat && c.toNat ≤ 57)

/-- Left-to-right automaton for the anchored regular expression
`[a-z0-9]+(_[a-z0-9]+)*` (the `snakeCaseRe` / `snake` pattern of the
two variants): `prev` records whether the previous character was a
`[a-z0-9]` character; an underscore (code 95) is legal only right
after one, and the string must end right after one. -/
def snakeAux : Bool → List Char → Bool
  | prev, [] => prev
  | prev, c :: rest =>
    if isSnakeChar c then snakeAux true rest
    else if c.toNat == 95 then prev && snakeAux false rest
    else false

/-- `snakeCaseRe.MatchString` / `snake.MatchString`:
the whole string matches `[a-z0-9]+(_[a-z0-9]+)*`. -/
def snakeMatch (s : String) : Bool := snakeAux false s.data

/-- `memRe.MatchString`: the whole string matches `\d+(Gi|Mi|Ki)`,
read from the right: final `i` (105), then one of `G`/`M`/`K`
(71/77/75), then a non-empty run of digits. -/
def memMatch (s : String) : Bool :=
  match s.data.reverse with
  | i :: u :: rest =>
      i.toNat == 105 && (u.toNat == 71 || u.toNat == 77 || u.toNat == 75) &&
      !rest.isEmpty && rest.all isDigitCh
  | _ => false

/-- One recorded validation error: `verr` in part_000; in main.go the
same data is what `fail`/`failRequired` print (line 0 encodes "no
line", exactly as the Go code uses the zero value). -/
structure Verr where
  line : Nat
  msg : String
  deriving DecidableEq

/-- ASCII apostrophe, used by the `%s`-quoting in error messages. -/
def qch : Char := Char.ofNat 39

/-- Wrap a value in apostrophes, as the format strings `...%s...` with
surrounding quote characters do. -/
def qs (v : String) : String := ⟨qch :: (v.data ++ [qch])⟩

/-- `addRequired` in part_000 / `failRequired` in main.go: an error
with no line and message `<field> is required`. -/
def reqErr (f : String) : Verr := ⟨0, f ++ " is required"⟩

/-- Errors produced by running `f` over each element in order; this is
what threading part_000's append-only `vctx` through a loop yields. -/
def collect (f : α → List Verr) : List α → List Verr
  | [] => []
  | x :: xs => f x ++ collect f xs

/-- Sequencing of two fail-fast steps: main.go's
`if err := ...; err != nil { return err }` between two blocks. -/
def seqE (a b : Except Verr Unit) : Except Verr Unit :=
  match a with
  | .error e => .error e
  | .ok _ => b

/-- main.go's loops `for _, c := range ... { if err := f(c); err != nil
{ return err } }`: first error wins. -/
def firstErr (f : α → Except Verr Unit) : List α → Except Verr Unit
  | [] => .ok ()
  | x :: xs =>
    match f x with
    | .error e => .error e
    | .ok _ => firstErr f xs

/-!
## Accumulate-all variant (`src/unnamed/part_000`)

Each Go rule only appends to the context's error slice, so each rule is
embedded as the list of errors it appends, in order; a caller appends
the lists of its blocks in the order the Go code runs them.
-/

/-- part_000 `asInt`: `(value, ok, line)`; `ok` is false off scalars
and on text `strconv.Atoi` rejects; the line is always the node's. -/
def asInt (n : Node) : Int × Bool × Nat :=
  if n.isScalar = false then (0, false, n.line)
  else
    match atoi (trimSpace n.value) with
    | none => (0, false, n.line)
    | some i => (i, true, n.line)

/-- part_000 `validateRRSet`. -/
def validateRRSetA (n : Node) : List Verr :=
  if n.isMapping = false then [⟨n.line, "resources entry must be object"⟩]
  else
    collect (fun p =>
      if p.1.value == "cpu" then
        (if isInt p.2 = false then [⟨p.2.line, "cpu must be int"⟩] else [])
      else if p.1.value == "memory" then
        (if isStr p.2 = false then [⟨p.2.line, "memory must be string"⟩]
         else if memMatch p.2.value = false then
           [⟨p.2.line, "memory has invalid format " ++ qs p.2.value⟩]
         else [])
      else []) n.pairs

/-- part_000 `validateResources`. -/
def validateResourcesA (n : Node) : List Verr :=
  if n.isMapping = false then [⟨n.line, "resources must be object"⟩]
  else
    (match field n "limits" with
     | none => []
     | some lim => validateRRSetA lim)
    ++ (match field n "requests" with
        | none => []
        | some req => validateRRSetA req)

/-- part_000 `validateProbe`. -/
def validateProbeA (short : String) (n : Node) : List Verr :=
  if n.isMapping = false then [⟨n.line, short ++ " must be object"⟩]
  else
    match field n "httpGet" with
    | none => [reqErr "httpGet"]
    | some hg =>
      if hg.isMapping = false then [⟨hg.line, "httpGet must be object"⟩]
      else
        (match field hg "path" with
         | none => [reqErr "path"]
         | some path =>
           if isStr path = false then [⟨path.line, "path must be string"⟩]
           else if startsWithS path.value "/" = false then
             [⟨path.line, "path has invalid format " ++ qs path.value⟩]
           else [])
        ++ (match field hg "port" with
            | none => [reqErr "port"]
            | some prt =>
              match asInt prt with
              | (v, okInt, line) =>
                if okInt = false then [⟨line, "port must be int"⟩]
                else if v ≤ 0 || 65536 ≤ v then
                  [⟨prt.line, "port value out of range"⟩]
                else [])

/-- part_000 `validateContainerPort`. -/
def validateContainerPortA (n : Node) : List Verr :=
  if n.isMapping = false then [⟨n.line, "ports item must be object"⟩]
  else
    match field n "containerPort" with
    | none => [reqErr "containerPort"]
    | some cp =>
      (match asInt cp with
       | (port, okInt, line) =>
         if okInt = false then [⟨line, "containerPort must be int"⟩]
         else if port ≤ 0 || 65536 ≤ port then
           [⟨line, "containerPort value out of range"⟩]
         else [])
      ++ (match field n "protocol" with
          | none => []
          | some proto =>
            if isStr proto = false then [⟨proto.line, "protocol must be string"⟩]
            else if toUpperA proto.value == "TCP" || toUpperA proto.value == "UDP" then []
            else [⟨proto.line, "protocol has unsupported value " ++ qs proto.value⟩])

/-- part_000 `validateContainer`. -/
def validateContainerA (n : Node) : List Verr :=
  if n.isMapping = false then [⟨n.line, "containers item must be object"⟩]
  else
    (match field n "name" with
     | none => [reqErr "name"]
     | some name =>
       if isStr name = false then [⟨name.line, "name must be string"⟩]
       else if trimSpace name.value == "" then [⟨name.line, "name is required"⟩]
       else if snakeMatch name.value = false then
         [⟨name.line, "name has invalid format " ++ qs name.value⟩]
       else [])
    ++ (match field n "image" with
        | none => [reqErr "image"]
        | some img =>
          if isStr img = false then [⟨img.line, "image must be string"⟩]
          else if startsWithS img.value "registry.bigbrother.io/" = false then
            [⟨img.line, "image has invalid format " ++ qs img.value⟩]
          else if containsCh (afterLastSlash img.value.data) 58 = false then
            [⟨img.line, "image has invalid format " ++ qs img.value⟩]
          else [])
    ++ (match field n "ports" with
        | none => []
        | some ports =>
          if ports.isSequence = false then [⟨ports.line, "ports must be array"⟩]
          else collect validateContainerPortA ports.elems)
    ++ (match field n "readinessProbe" with
        | none => []
        | some rp => validateProbeA "readinessProbe" rp)
    ++ (match field n "livenessProbe" with
        | none => []
        | some lp => validateProbeA "livenessProbe" lp)
    ++ (match field n "resources" with
        | none => [reqErr "resources"]
        | some res => validateResourcesA res)

/-- part_000 `validateSpecContainers`. -/
def validateSpecContainersA (n : Node) : List Verr :=
  match field n "containers" with
  | none => [reqErr "containers"]
  | some cs =>
    if cs.isSequence = false then [⟨cs.line, "containers must be array"⟩]
    else if cs.elems.isEmpty then [⟨cs.line, "containers value out of range"⟩]
    else collect validateContainerA cs.elems

/-- part_000 `validateSpec` (shape and `os` only; the `containers`
checks live in `validateSpecContainers`). -/
def validateSpecA (n : Node) : List Verr :=
  if n.isMapping = false then [⟨n.line, "spec must be object"⟩]
  else
    match field n "os" with
    | none => []
    | some osN =>
      if isStr osN = false then [⟨osN.line, "os must be string"⟩]
      else if toLowerA osN.value == "linux" || toLowerA osN.value == "windows" then []
      else [⟨osN.line, "os has unsupported value " ++ qs osN.value⟩]

/-- part_000 `validateMetadata`. -/
def validateMetadataA (n : Node) : List Verr :=
  if n.isMapping = false then [⟨n.line, "metadata must be object"⟩]
  else
    (match field n "name" with
     | none => [reqErr "name"]
     | some name =>
       if isStr name = false then [⟨name.line, "name must be string"⟩]
       else if trimSpace name.value == "" then [⟨name.line, "name is required"⟩]
       else [])
    ++ (match field n "namespace" with
        | none => []
        | some ns =>
          if isStr ns = false then [⟨ns.line, "namespace must be string"⟩] else [])
    ++ (match field n "labels" with
        | none => []
        | some labels =>
          if labels.isMapping = false then [⟨labels.line, "labels must be object"⟩]
          else
            collect (fun p =>
              (if isStr p.1 = false then [⟨p.1.line, "labels key must be string"⟩] else [])
              ++ (if isStr p.2 = false then [⟨p.2.line, "labels value must be string"⟩] else []))
              labels.pairs)

/-- part_000 `validateTop`: apiVersion, kind, then spec (shape and
os), then metadata, then - when the spec field was found - the
containers checks, exactly in the Go statement order. -/
def validateTopA (n : Node) : List Verr :=
  if n.isMapping = false then [⟨n.line, "document must be a mapping object"⟩]
  else
    (match field n "apiVersion" with
     | none => [reqErr "apiVersion"]
     | some api =>
       if isStr api = false then [⟨api.line, "apiVersion must be string"⟩]
       else if api.value == "v1" then []
       else [⟨api.line, "apiVersion has unsupported value " ++ qs api.value⟩])
    ++ (match field n "kind" with
        | none => [reqErr "kind"]
        | some kind =>
          if isStr kind = false then [⟨kind.line, "kind must be string"⟩]
          else if kind.value == "Pod" then []
          else [⟨kind.line, "kind has unsupported value " ++ qs kind.value⟩])
    ++ (match field n "spec" with
        | none => [reqErr "spec"]
        | some spec => validateSpecA spec)
    ++ (match field n "metadata" with
        | none => [reqErr "metadata"]
        | some meta => validateMetadataA meta)
    ++ (match field n "spec" with
        | none => []
        | some spec => validateSpecContainersA spec)

/-- `fprintfErr` / the print statements of `flush`: one output line per
error, `<file>:<line> <msg>` when the line is positive, else
`<file>: <msg>`. -/
def formatLine (file : String) (e : Verr) : String :=
  if 0 < e.line then file ++ ":" ++ toString e.line ++ " " ++ e.msg
  else file ++ ": " ++ e.msg

/-- part_000 `flush`: the printed lines and the returned exit code. -/
def flushA (file : String) (errs : List Verr) : List String × Nat :=
  if errs.isEmpty then ([], 0) else (errs.map (formatLine file), 1)

/-- part_000 `main` after a successful parse: validate, flush, exit
with flush's code. -/
def runA (file : String) (n : Node) : List String × Nat :=
  flushA file (validateTopA n)

/-!
## Fail-fast variant (`src/main.go`)

Each Go function returns `error`; `fail`/`failRequired` print the one
message and return non-nil, and every caller returns on the first
non-nil error. A rule is embedded as `Except Verr Unit`: `.error e`
carries the one printed error.
-/

/-- main.go `toInt`: `strconv.Atoi(strings.TrimSpace(n.Value))`. -/
def toInt (n : Node) : Option Int := atoi (trimSpace n.value)

/-- main.go `validateRRSet`. -/
def validateRRSetF (pre : String) (n : Node) : Except Verr Unit :=
  if n.isMapping = false then .error ⟨n.line, pre ++ " must be object"⟩
  else
    firstErr (fun p =>
      if isStr p.1 = false then .error ⟨p.1.line, pre ++ " key must be string"⟩
      else if p.1.value == "cpu" then
        (if p.2.isScalar = false then .error ⟨p.2.line, pre ++ ".cpu must be int"⟩
         else
           match toInt p.2 with
           | none => .error ⟨p.2.line, pre ++ ".cpu must be int"⟩
           | some _ => .ok ())
      else if p.1.value == "memory" then
        (if isStr p.2 = false then .error ⟨p.2.line, pre ++ ".memory must be string"⟩
         else if memMatch p.2.value = false then
           .error ⟨p.2.line, pre ++ ".memory has invalid format " ++ qs p.2.value⟩
         else .ok ())
      else .ok ()) n.pairs

/-- main.go `validateResources`. -/
def validateResourcesF (n : Node) : Except Verr Unit :=
  if n.isMapping = false then .error ⟨n.line, "containers.resources must be object"⟩
  else
    seqE
      (match field n "limits" with
       | none => .ok ()
       | some lim => validateRRSetF "containers.resources.limits" lim)
      (match field n "requests" with
       | none => .ok ()
       | some req => validateRRSetF "containers.resources.requests" req)

/-- main.go `validateProbe`. -/
def validateProbeF (pre : String) (n : Node) : Except Verr Unit :=
  if n.isMapping = false then .error ⟨n.line, pre ++ " must be object"⟩
  else
    match field n "httpGet" with
    | none => .error (reqErr (pre ++ ".httpGet"))
    | some hg =>
      if hg.isMapping = false then .error ⟨hg.line, pre ++ ".httpGet must be object"⟩
      else
        seqE
          (match field hg "path" with
           | none => .error (reqErr (pre ++ ".httpGet.path"))
           | some path =>
             if isStr path = false then
               .error ⟨path.line, pre ++ ".httpGet.path must be string"⟩
             else if startsWithS path.value "/" = false then
               .error ⟨path.line, pre ++ ".httpGet.path has invalid format " ++ qs path.value⟩
             else .ok ())
          (match field hg "port" with
           | none => .error (reqErr (pre ++ ".httpGet.port"))
           | some prt =>
             if prt.isScalar = false then
               .error ⟨prt.line, pre ++ ".httpGet.port must be int"⟩
             else
               match toInt prt with
               | none => .error ⟨prt.line, pre ++ ".httpGet.port must be int"⟩
               | some p =>
                 if p ≤ 0 || 65536 ≤ p then
                   .error ⟨prt.line, pre ++ ".httpGet.port value out of range"⟩
                 else .ok ())

/-- main.go `validateContainerPort`. -/
def validateContainerPortF (n : Node) : Except Verr Unit :=
  if n.isMapping = false then .error ⟨n.line, "containers.ports item must be object"⟩
  else
    match field n "containerPort" with
    | none => .error (reqErr "containers.ports.containerPort")
    | some cp =>
      seqE
        (if cp.isScalar = false then .error ⟨cp.line, "containerPort must be int"⟩
         else
           match toInt cp with
           | none => .error ⟨cp.line, "containerPort must be int"⟩
           | some port =>
             if port ≤ 0 || 65536 ≤ port then
               .error ⟨cp.line, "containerPort value out of range"⟩
             else .ok ())
        (match field n "protocol" with
         | none => .ok ()
         | some proto =>
           if isStr proto = false then .error ⟨proto.line, "protocol must be string"⟩
           else if toUpperA proto.value == "TCP" || toUpperA proto.value == "UDP" then .ok ()
           else .error ⟨proto.line, "protocol has unsupported value " ++ qs proto.value⟩)

/-- main.go `validateContainer`. -/
def validateContainerF (n : Node) : Except Verr Unit :=
  if n.isMapping = false then .error ⟨n.line, "containers item must be object"⟩
  else
    seqE
      (match field n "name" with
       | none => .error (reqErr "containers.name")
       | some name =>
         if isStr name = false then .error ⟨name.line, "containers.name must be string"⟩
         else if snakeMatch name.value = false then
           .error ⟨name.line, "containers.name has invalid format " ++ qs name.value⟩
         else .ok ()) <|
    seqE
      (match field n "image" with
       | none => .error (reqErr "containers.image")
       | some img =>
         if isStr img = false then .error ⟨img.line, "containers.image must be string"⟩
         else if startsWithS img.value "registry.bigbrother.io/" = false then
           .error ⟨img.line, "containers.image has invalid format " ++ qs img.value⟩
         else if containsCh img.value.data 47 = false then
           .error ⟨img.line, "containers.image has invalid format " ++ qs img.value⟩
         else if containsCh (afterLastSlash img.value.data) 58 = false then
           .error ⟨img.line, "containers.image has invalid format " ++ qs img.value⟩
         else .ok ()) <|
    seqE
      (match field n "ports" with
       | none => .ok ()
       | some ports =>
         if ports.isSequence = false then
           .error ⟨ports.line, "containers.ports must be array"⟩
         else firstErr validateContainerPortF ports.elems) <|
    seqE
      (match field n "readinessProbe" with
       | none => .ok ()
       | some rp => validateProbeF "containers.readinessProbe" rp) <|
    seqE
      (match field n "livenessProbe" with
       | none => .ok ()
       | some lp => validateProbeF "containers.livenessProbe" lp)
      (match field n "resources" with
       | none => .error (reqErr "containers.resources")
       | some res => validateResourcesF res)

/-- main.go `validateSpec`. -/
def validateSpecF (n : Node) : Except Verr Unit :=
  if n.isMapping = false then .error ⟨n.line, "spec must be object"⟩
  else
    seqE
      (match field n "os" with
       | none => .ok ()
       | some osN =>
         if isStr osN = false then .error ⟨osN.line, "spec.os must be string"⟩
         else if toLowerA osN.value == "linux" || toLowerA osN.value == "windows" then .ok ()
         else .error ⟨osN.line, "spec.os has unsupported value " ++ qs osN.value⟩)
      (match field n "containers" with
       | none => .error (reqErr "spec.containers")
       | some cs =>
         if cs.isSequence = false then .error ⟨cs.line, "spec.containers must be array"⟩
         else if cs.elems.isEmpty then .error ⟨cs.line, "spec.containers value out of range"⟩
         else firstErr validateContainerF cs.elems)

/-- main.go `validateMetadata`. -/
def validateMetadataF (n : Node) : Except Verr Unit :=
  if n.isMapping = false then .error ⟨n.line, "metadata must be object"⟩
  else
    seqE
      (match field n "name" with
       | none => .error (reqErr "metadata.name")
       | some name =>
         if isStr name = false || trimSpace name.value == "" then
           .error ⟨name.line, "metadata.name must be string"⟩
         else .ok ()) <|
    seqE
      (match field n "namespace" with
       | none => .ok ()
       | some ns =>
         if isStr ns = false then .error ⟨ns.line, "metadata.namespace must be string"⟩
         else .ok ())
      (match field n "labels" with
       | none => .ok ()
       | some labels =>
         if labels.isMapping = false then .error ⟨labels.line, "metadata.labels must be object"⟩
         else
           firstErr (fun p =>
             if isStr p.1 = false then .error ⟨p.1.line, "metadata.labels key must be string"⟩
             else if isStr p.2 = false then .error ⟨p.2.line, "metadata.labels value must be string"⟩
             else .ok ()) labels.pairs)

/-- main.go `validateTopLevel`: apiVersion, kind, metadata, spec, in
the Go statement order, stopping at the first error. -/
def validateTopLevelF (n : Node) : Except Verr Unit :=
  if n.isMapping = false then .error ⟨n.line, "document must be a mapping object"⟩
  else
    seqE
      (match field n "apiVersion" with
       | none => .error (reqErr "apiVersion")
       | some api =>
         if isStr api = false then .error ⟨api.line, "apiVersion must be string"⟩
         else if api.value == "v1" then .ok ()
         else .error ⟨api.line, "apiVersion has unsupported value " ++ qs api.value⟩) <|
    seqE
      (match field n "kind" with
       | none => .error (reqErr "kind")
       | some kind =>
         if isStr kind = false then .error ⟨kind.line, "kind must be string"⟩
         else if kind.value == "Pod" then .ok ()
         else .error ⟨kind.line, "kind has unsupported value " ++ qs kind.value⟩) <|
    seqE
      (match field n "metadata" with
       | none => .error (reqErr "metadata")
       | some meta => validateMetadataF meta)
      (match field n "spec" with
       | none => .error (reqErr "spec")
       | some spec => validateSpecF spec)

/-- main.go `main` after a successful parse: the lines `fail` /
`failRequired` printed (at most one) and the process exit code. -/
def runF (file : String) (n : Node) : List String × Nat :=
  match validateTopLevelF n with
  | .ok _ => ([], 0)
  | .error e => ([formatLine file e], 1)

/-!
## Structural helpers for the theorems
-/

mutual

/-- All line numbers occurring in a tree. -/
def nodeLines : Node → List Nat
  | .mapping l c => l :: nodeLinesPairs c
  | .sequence l c => l :: nodeLinesList c
  | .scalar l _ _ => [l]

/-- Lines of a list of nodes. -/
def nodeLinesList : List Node → List Nat
  | [] => []
  | n :: ns => nodeLines n ++ nodeLinesList ns

/-- Lines of a list of key/value pairs. -/
def nodeLinesPairs : List (Node × Node) → List Nat
  | [] => []
  | p :: ps => nodeLines p.1 ++ nodeLines p.2 ++ nodeLinesPairs ps

end

/-- Shorthand for a string-tagged scalar key. -/
def keyS (line : Nat) (s : String) : Node := .scalar line "!!str" s

/-- The end-to-end valid document of the spec: apiVersion v1, kind
Pod, metadata.name "web", one container named "web_app" with image
"registry.bigbrother.io/app:v1" and empty resources. -/
def podDoc : Node :=
  .mapping 1
    [ (keyS 1 "apiVersion", .scalar 1 "!!str" "v1"),
      (keyS 2 "kind", .scalar 2 "!!str" "Pod"),
      (keyS 3 "metadata", .mapping 4 [(keyS 4 "name", .scalar 4 "!!str" "web")]),
      (keyS 5 "spec",
        .mapping 6
          [ (keyS 6 "containers",
             .sequence 7
               [ .mapping 7
                   [ (keyS 7 "name", .scalar 7 "!!str" "web_app"),
                     (keyS 8 "image", .scalar 8 "!!str" "registry.bigbrother.io/app:v1"),
                     (keyS 9 "resources", .mapping 9 []) ] ]) ]) ]

/-!
## C1: the end-to-end valid document
-/

/-- C1: for the document with apiVersion "v1", kind "Pod",
metadata.name "web" and a single container {name "web_app", image
"registry.bigbrother.io/app:v1", resources {}}, the accumulate-all
variant records zero errors and exits 0, and the fail-fast variant
returns success and exits 0. -/
theorem c1_valid_pod_zero_errors :
    validateTopA podDoc = [] ∧ runA "pod.yaml" podDoc = ([], 0) ∧
    validateTopLevelF podDoc = .ok () ∧ runF "pod.yaml" podDoc = ([], 0) :=
  ⟨rfl, rfl, rfl, rfl⟩

/-!
## C6: port range bounds
-/

/-- A ports-item mapping whose containerPort scalar has text `v`. -/
def portItem (v : String) : Node :=
  .mapping 1 [(keyS 1 "containerPort", .scalar 2 "!!int" v)]

/-- A probe mapping with httpGet.path "/healthz" and httpGet.port `v`. -/
def probeItem (v : String) : Node :=
  .mapping 1
    [ (keyS 1 "httpGet",
       .mapping 2
         [ (keyS 2 "path", .scalar 2 "!!str" "/healthz"),
           (keyS 3 "port", .scalar 3 "!!int" v) ]) ]

/-- C6: containerPort 0 and 65536 are recorded as range violations and
1 and 65535 pass, in both variants; the probe httpGet.port check
applies the same bounds in both variants. -/
theorem c6_port_bounds :
    validateContainerPortA (portItem "0") = [⟨2, "containerPort value out of range"⟩] ∧
    validateContainerPortA (portItem "65536") = [⟨2, "containerPort value out of range"⟩] ∧
    validateContainerPortA (portItem "1") = [] ∧
    validateContainerPortA (portItem "65535") = [] ∧
    validateContainerPortF (portItem "0") = .error ⟨2, "containerPort value out of range"⟩ ∧
    validateContainerPortF (portItem "65536") = .error ⟨2, "containerPort value out of range"⟩ ∧
    validateContainerPortF (portItem "1") = .ok () ∧
    validateContainerPortF (portItem "65535") = .ok () ∧
    validateProbeA "readinessProbe" (probeItem "0") = [⟨3, "port value out of range"⟩] ∧
    validateProbeA "readinessProbe" (probeItem "65536") = [⟨3, "port value out of range"⟩] ∧
    validateProbeA "readinessProbe" (probeItem "1") = [] ∧
    validateProbeA "readinessProbe" (probeItem "65535") = [] ∧
    validateProbeF "containers.readinessProbe" (probeItem "0")
      = .error ⟨3, "containers.readinessProbe.httpGet.port value out of range"⟩ ∧
    validateProbeF "containers.readinessProbe" (probeItem "65536")
      = .error ⟨3, "containers.readinessProbe.httpGet.port value out of range"⟩ ∧
    validateProbeF "containers.readinessProbe" (probeItem "1") = .ok () ∧
    validateProbeF "containers.readinessProbe" (probeItem "65535") = .ok () :=
  ⟨rfl, rfl, rfl, rfl, rfl, rfl, rfl, rfl, rfl, rfl, rfl, rfl, rfl, rfl, rfl, rfl⟩

/-!
## C9: the integer checks ignore the scalar tag
-/

def portItemT (tag v : String) : Node :=
  .mapping 1 [(keyS 1 "containerPort", .scalar 2 tag v)]

def probeItemT (tag v : String) : Node :=
  .mapping 1
    [ (keyS 1 "httpGet",
       .mapping 2
         [ (keyS 2 "path", .scalar 2 "!!str" "/healthz"),
           (keyS 3 "port", .scalar 3 tag v) ]) ]

theorem c9_int_checks_ignore_tag (tag v : String) (p : Int)
    (h : atoi (trimSpace v) = some p) :
    validateContainerPortA (portItemT tag v)
      = (if p ≤ 0 || 65536 ≤ p then [⟨2, "containerPort value out of range"⟩] else []) ∧
    validateContainerPortF (portItemT tag v)
      = (if p ≤ 0 || 65536 ≤ p then .error ⟨2, "containerPort value out of range"⟩ else .ok ()) ∧
    validateProbeA "readinessProbe" (probeItemT tag v)
      = (if p ≤ 0 || 65536 ≤ p then [⟨3, "port value out of range"⟩] else []) ∧
    validateProbeF "containers.readinessProbe" (probeItemT tag v)
      = (if p ≤ 0 || 65536 ≤ p then
           .error ⟨3, "containers.readinessProbe.httpGet.port value out of range"⟩
         else .ok ()) := by
  have h0 : (portItemT tag v).isMapping = true := rfl
  have h1 : field (portItemT tag v) "containerPort" = some (.scalar 2 tag v) := rfl
  have h2 : field (portItemT tag v) "protocol" = none := rfl
  have g0 : (probeItemT tag v).isMapping = true := rfl
  have g1 : field (probeItemT tag v) "httpGet"
      = some (.mapping 2 [ (keyS 2 "path", .scalar 2 "!!str" "/healthz"),
                           (keyS 3 "port", .scalar 3 tag v) ]) := rfl
  have g2 : field (.mapping 2 [ (keyS 2 "path", .scalar 2 "!!str" "/healthz"),
                                (keyS 3 "port", .scalar 3 tag v) ] : Node) "path"
      = some (.scalar 2 "!!str" "/healthz") := rfl
  have g3 : field (.mapping 2 [ (keyS 2 "path", .scalar 2 "!!str" "/healthz"),
                                (keyS 3 "port", .scalar 3 tag v) ] : Node) "port"
      = some (.scalar 3 tag v) := rfl
  have g4 : (Node.mapping 2 [ (keyS 2 "path", .scalar 2 "!!str" "/healthz"),
                              (keyS 3 "port", .scalar 3 tag v) ]).isMapping = true := rfl
  have g5 : isStr (Node.scalar 2 "!!str" "/healthz") = true := rfl
  have g6 : startsWithS "/healthz" "/" = true := rfl
  refine ⟨?_, ?_, ?_, ?_⟩
  · simp only [validateContainerPortA, h0, h1, h2, asInt, Node.isScalar, Node.value, Node.line]
    simp [h]
  · simp only [validateContainerPortF, h0, h1, h2, toInt, Node.isScalar, Node.value, Node.line]
    simp only [h]
    by_cases hp : p ≤ 0 ∨ 65536 ≤ p <;> simp [hp, seqE]
  · simp only [validateProbeA, g0, g1, g2, g3, g4, g5, g6, asInt,
      Node.isScalar, Node.value, Node.line]
    simp [h]
  · simp only [validateProbeF, g0, g1, g2, g3, g4, g5, g6, toInt,
      Node.isScalar, Node.value, Node.line]
    simp only [h]
    by_cases hp : p ≤ 0 ∨ 65536 ≤ p <;> simp [hp, seqE]

/-- Witness for C9: a string-tagged scalar "80" (a quoted YAML number)
passes the must-be-int checks of both variants and is in range. -/
theorem c9_int_checks_ignore_tag_witness :
    validateContainerPortA (portItemT "!!str" "80") = [] ∧
    validateContainerPortF (portItemT "!!str" "80") = .ok () := by
  have h := c9_int_checks_ignore_tag "!!str" "80" 80 rfl
  refine ⟨?_, ?_⟩
  · simpa using h.1
  · simpa using h.2.1

/-!
## C5: empty containers sequence
-/

/-- C5: when spec.containers is present and an empty sequence, the
accumulate-all containers rule records exactly the one range-violation
error and validates no container element; the fail-fast spec rule
(once past its os check) returns exactly that error. -/
theorem c5_empty_containers (n : Node) (l : Nat)
    (hc : field n "containers" = some (.sequence l [])) :
    validateSpecContainersA n = [⟨l, "containers value out of range"⟩] ∧
    (n.isMapping = true → field n "os" = none →
      validateSpecF n = .error ⟨l, "spec.containers value out of range"⟩) := by
  constructor
  · simp [validateSpecContainersA, hc, Node.isSequence, Node.elems, Node.line]
  · intro hm hos
    simp [validateSpecF, hm, hos, hc, Node.isSequence, Node.elems, Node.line, seqE]

theorem c5_empty_containers_witness :
    validateSpecContainersA (.mapping 1 [(keyS 1 "containers", .sequence 2 [])])
      = [⟨2, "containers value out of range"⟩] ∧
    validateSpecF (.mapping 1 [(keyS 1 "containers", .sequence 2 [])])
      = .error ⟨2, "spec.containers value out of range"⟩ := by
  have h := c5_empty_containers (.mapping 1 [(keyS 1 "containers", .sequence 2 [])]) 2 rfl
  exact ⟨h.1, h.2 rfl rfl⟩

/-!
## C7: image format
-/

/-- Characters of a matched literal are characters of the string. -/
theorem startsWithL_containsCh (p : List Char) (n : Nat) :
    ∀ l, startsWithL l p = true → containsCh p n = true → containsCh l n = true := by
  induction p with
  | nil => intro l _ hc; simp [containsCh] at hc
  | cons q qs ih =>
    intro l h hc
    cases l with
    | nil => simp [startsWithL] at h
    | cons c cs =>
      simp only [startsWithL, Bool.and_eq_true, beq_iff_eq] at h
      simp only [containsCh, List.any_cons, Bool.or_eq_true, beq_iff_eq] at hc ⊢
      rcases hc with hc | hc
      · exact Or.inl (h.1 ▸ hc)
      · exact Or.inr (by
          have := ih cs h.2 (by simpa [containsCh] using hc)
          simpa [containsCh] using this)

/-- A container mapping, valid except possibly for its image string. -/
def containerWithImage (s : String) : Node :=
  .mapping 1
    [ (keyS 1 "name", .scalar 1 "!!str" "web_app"),
      (keyS 2 "image", .scalar 2 "!!str" s),
      (keyS 3 "resources", .mapping 3 []) ]

/-- The spec's image rule: starts with `registry.bigbrother.io/` and
the segment after the final slash contains a colon (code 58). -/
def imageOkSpec (s : String) : Bool :=
  startsWithS s "registry.bigbrother.io/" && containsCh (afterLastSlash s.data) 58

theorem containerImage_ok_iff (s : String) :
    (validateContainerA (containerWithImage s) = [] ↔ imageOkSpec s = true) ∧
    (validateContainerF (containerWithImage s) = .ok () ↔ imageOkSpec s = true) := by
  have f1 : field (containerWithImage s) "name" = some (.scalar 1 "!!str" "web_app") := rfl
  have f2 : field (containerWithImage s) "image" = some (.scalar 2 "!!str" s) := rfl
  have f3 : field (containerWithImage s) "ports" = none := rfl
  have f4 : field (containerWithImage s) "readinessProbe" = none := rfl
  have f5 : field (containerWithImage s) "livenessProbe" = none := rfl
  have f6 : field (containerWithImage s) "resources" = some (.mapping 3 []) := rfl
  have f0 : (containerWithImage s).isMapping = true := rfl
  have e1 : isStr (Node.scalar 1 "!!str" "web_app") = true := rfl
  have e2 : (trimSpace "web_app" == "") = false := rfl
  have e3 : snakeMatch "web_app" = true := rfl
  have e4 : isStr (Node.scalar 2 "!!str" s) = true := rfl
  have e5 : validateResourcesA (.mapping 3 []) = [] := rfl
  have e6 : validateResourcesF (.mapping 3 []) = .ok () := rfl
  have hslash : containsCh ("registry.bigbrother.io/".data) 47 = true := rfl
  constructor
  · simp only [validateContainerA, f0, f1, f2, f3, f4, f5, f6, e1, e2, e3, e4, e5,
      Node.value, Node.line, imageOkSpec, startsWithS]
    by_cases hp : startsWithL s.data ("registry.bigbrother.io/".data) = true
    · by_cases hc : containsCh (afterLastSlash s.data) 58 = true <;>
        simp [hp, hc]
    · simp [Bool.not_eq_true] at hp
      simp [hp]
  · simp only [validateContainerF, f0, f1, f2, f3, f4, f5, f6, e1, e2, e3, e4, e6,
      Node.value, Node.line, imageOkSpec, startsWithS, seqE]
    by_cases hp : startsWithL s.data ("registry.bigbrother.io/".data) = true
    · have h47 : containsCh s.data 47 = true :=
        startsWithL_containsCh _ 47 s.data hp hslash
      by_cases hc : containsCh (afterLastSlash s.data) 58 = true <;>
        simp [hp, hc, h47, seqE]
    · simp [Bool.not_eq_true] at hp
      simp [hp, seqE]

/-- C7: an image is accepted by the container rule of either variant
iff it starts with "registry.bigbrother.io/" and the segment after its
final slash contains a colon; "registry.bigbrother.io/app:v1" passes,
"registry.bigbrother.io/app" and "other.registry/app:v1" are recorded
as format violations. -/
theorem c7_image_format :
    (∀ s : String,
      (validateContainerA (containerWithImage s) = [] ↔ imageOkSpec s = true) ∧
      (validateContainerF (containerWithImage s) = .ok () ↔ imageOkSpec s = true)) ∧
    imageOkSpec "registry.bigbrother.io/app:v1" = true ∧
    imageOkSpec "registry.bigbrother.io/app" = false ∧
    imageOkSpec "other.registry/app:v1" = false ∧
    validateContainerA (containerWithImage "registry.bigbrother.io/app:v1") = [] ∧
    validateContainerA (containerWithImage "registry.bigbrother.io/app")
      = [⟨2, "image has invalid format " ++ qs "registry.bigbrother.io/app"⟩] ∧
    validateContainerA (containerWithImage "other.registry/app:v1")
      = [⟨2, "image has invalid format " ++ qs "other.registry/app:v1"⟩] ∧
    validateContainerF (containerWithImage "registry.bigbrother.io/app")
      = .error ⟨2, "containers.image has invalid format " ++ qs "registry.bigbrother.io/app"⟩ ∧
    validateContainerF (containerWithImage "other.registry/app:v1")
      = .error ⟨2, "containers.image has invalid format " ++ qs "other.registry/app:v1"⟩ :=
  ⟨containerImage_ok_iff, rfl, rfl, rfl, rfl, rfl, rfl, rfl, rfl⟩

/-!
## C4: output formatting and exit status
-/

/-- C4: the accumulate-all run emits exactly the recorded errors, in
recording order, each formatted `<file>:<line> <msg>` when a line is
present and `<file>: <msg>` otherwise, and exits non-zero iff an error
was recorded; the fail-fast run prints its one error the same way and
exits non-zero iff validation failed. -/
theorem c4_finalize_output (file : String) (n : Node) (e : Verr) :
    (runA file n).1 = (validateTopA n).map (formatLine file) ∧
    ((runA file n).2 ≠ 0 ↔ validateTopA n ≠ []) ∧
    ((runF file n).2 ≠ 0 ↔ validateTopLevelF n ≠ .ok ()) ∧
    (0 < e.line → formatLine file e = file ++ ":" ++ toString e.line ++ " " ++ e.msg) ∧
    (e.line = 0 → formatLine file e = file ++ ": " ++ e.msg) ∧
    (runF file n).1 = (match validateTopLevelF n with
                       | .ok _ => []
                       | .error er => [formatLine file er]) := by
  refine ⟨?_, ?_, ?_, ?_, ?_, ?_⟩
  · unfold runA flushA
    split <;> simp_all
  · unfold runA flushA
    split <;> simp_all
  · cases h : validateTopLevelF n <;> simp [runF, h]
  · intro h; simp [formatLine, h]
  · intro h; simp [formatLine, h]
  · cases h : validateTopLevelF n <;> simp [runF, h]

theorem c4_finalize_output_witness :
    formatLine "pod.yaml" ⟨3, "kind must be string"⟩ = "pod.yaml:3 kind must be string" ∧
    formatLine "pod.yaml" ⟨0, "spec is required"⟩ = "pod.yaml: spec is required" :=
  ⟨(c4_finalize_output "pod.yaml" podDoc ⟨3, "kind must be string"⟩).2.2.2.1 (by decide),
   (c4_finalize_output "pod.yaml" podDoc ⟨0, "spec is required"⟩).2.2.2.2.1 rfl⟩

/-!
## C3: shape mismatch gives one error and no descent
-/

/-- C3: for every rule of either variant, a node of the wrong kind
yields exactly the one shape-violation error; the result mentions only
the offending node's line, never its children, so the subtree under a
shape-failed node contributes no error (the children stay universally
quantified on the left and are absent on the right). -/
theorem c3_shape_mismatch_single_error :
    (∀ n : Node, n.isMapping = false →
        validateTopA n = [⟨n.line, "document must be a mapping object"⟩]) ∧
    (∀ n : Node, n.isMapping = false →
        validateMetadataA n = [⟨n.line, "metadata must be object"⟩]) ∧
    (∀ n : Node, n.isMapping = false →
        validateSpecA n = [⟨n.line, "spec must be object"⟩]) ∧
    (∀ n c : Node, field n "containers" = some c → c.isSequence = false →
        validateSpecContainersA n = [⟨c.line, "containers must be array"⟩]) ∧
    (∀ n : Node, n.isMapping = false →
        validateContainerA n = [⟨n.line, "containers item must be object"⟩]) ∧
    (∀ n : Node, n.isMapping = false →
        validateContainerPortA n = [⟨n.line, "ports item must be object"⟩]) ∧
    (∀ (short : String) (n : Node), n.isMapping = false →
        validateProbeA short n = [⟨n.line, short ++ " must be object"⟩]) ∧
    (∀ (short : String) (n hg : Node), n.isMapping = true →
        field n "httpGet" = some hg → hg.isMapping = false →
        validateProbeA short n = [⟨hg.line, "httpGet must be object"⟩]) ∧
    (∀ n : Node, n.isMapping = false →
        validateResourcesA n = [⟨n.line, "resources must be object"⟩]) ∧
    (∀ n : Node, n.isMapping = false →
        validateRRSetA n = [⟨n.line, "resources entry must be object"⟩]) ∧
    (∀ n : Node, n.isMapping = false →
        validateTopLevelF n = .error ⟨n.line, "document must be a mapping object"⟩) ∧
    (∀ n : Node, n.isMapping = false →
        validateSpecF n = .error ⟨n.line, "spec must be object"⟩) ∧
    (∀ n c : Node, n.isMapping = true → field n "os" = none →
        field n "containers" = some c → c.isSequence = false →
        validateSpecF n = .error ⟨c.line, "spec.containers must be array"⟩) ∧
    (∀ n : Node, n.isMapping = false →
        validateContainerF n = .error ⟨n.line, "containers item must be object"⟩) := by
  refine ⟨?_, ?_, ?_, ?_, ?_, ?_, ?_, ?_, ?_, ?_, ?_, ?_, ?_, ?_⟩
  · intro n h; simp [validateTopA, h]
  · intro n h; simp [validateMetadataA, h]
  · intro n h; simp [validateSpecA, h]
  · intro n c hc hs; simp [validateSpecContainersA, hc, hs]
  · intro n h; simp [validateContainerA, h]
  · intro n h; simp [validateContainerPortA, h]
  · intro short n h; simp [validateProbeA, h]
  · intro short n hg hm hf hh; simp [validateProbeA, hm, hf, hh]
  · intro n h; simp [validateResourcesA, h]
  · intro n h; simp [validateRRSetA, h]
  · intro n h; simp [validateTopLevelF, h]
  · intro n h; simp [validateSpecF, h]
  · intro n c hm hos hc hs; simp [validateSpecF, hm, hos, hc, hs, seqE]
  · intro n h; simp [validateContainerF, h]

theorem c3_shape_mismatch_single_error_witness :
    validateTopA (.sequence 4 [.scalar 5 "!!str" "x"])
      = [⟨4, "document must be a mapping object"⟩] ∧
    validateSpecContainersA (.mapping 1 [(keyS 1 "containers", .scalar 2 "!!str" "oops")])
      = [⟨2, "containers must be array"⟩] :=
  ⟨c3_shape_mismatch_single_error.1 (.sequence 4 [.scalar 5 "!!str" "x"]) rfl,
   c3_shape_mismatch_single_error.2.2.2.1
     (.mapping 1 [(keyS 1 "containers", .scalar 2 "!!str" "oops")])
     (.scalar 2 "!!str" "oops") rfl rfl⟩

/-!
## C8: fan-out order of the document-level check
-/

/-- A document whose metadata subtree (missing name) and spec subtree
(bad os) both contain violations, with a valid container. -/
def c8doc : Node :=
  .mapping 1
    [ (keyS 1 "apiVersion", .scalar 1 "!!str" "v1"),
      (keyS 2 "kind", .scalar 2 "!!str" "Pod"),
      (keyS 3 "metadata", .mapping 4 []),
      (keyS 5 "spec",
        .mapping 6
          [ (keyS 6 "os", .scalar 6 "!!str" "mac"),
            (keyS 7 "containers",
             .sequence 8
               [ .mapping 8
                   [ (keyS 8 "name", .scalar 8 "!!str" "web_app"),
                     (keyS 9 "image", .scalar 9 "!!str" "registry.bigbrother.io/app:v1"),
                     (keyS 10 "resources", .mapping 10 []) ] ]) ]) ]

/-- C8 counterexample: in the accumulate variant the spec os error is
recorded before the metadata error, so not every metadata error
precedes every spec error: the fan-out order is apiVersion, kind, spec
(shape and os), metadata, containers. -/
theorem c8_counterexample :
    validateTopA c8doc
      = [⟨6, "os has unsupported value " ++ qs "mac"⟩, ⟨0, "name is required"⟩] ∧
    validateSpecA (.mapping 6
      [ (keyS 6 "os", .scalar 6 "!!str" "mac"),
        (keyS 7 "containers",
         .sequence 8
           [ .mapping 8
               [ (keyS 8 "name", .scalar 8 "!!str" "web_app"),
                 (keyS 9 "image", .scalar 9 "!!str" "registry.bigbrother.io/app:v1"),
                 (keyS 10 "resources", .mapping 10 []) ] ]) ])
      = [⟨6, "os has unsupported value " ++ qs "mac"⟩] ∧
    validateMetadataA (.mapping 4 []) = [⟨0, "name is required"⟩] ∧
    (validateTopA c8doc).get? 0 = some ⟨6, "os has unsupported value " ++ qs "mac"⟩ ∧
    (validateTopA c8doc).get? 1 = some ⟨0, "name is required"⟩ :=
  ⟨rfl, rfl, rfl, rfl, rfl⟩

/-- The apiVersion and kind paragraphs of part_000 `validateTop`. -/
def topFieldErrsA (n : Node) : List Verr :=
  (match field n "apiVersion" with
   | none => [reqErr "apiVersion"]
   | some api =>
     if isStr api = false then [⟨api.line, "apiVersion must be string"⟩]
     else if api.value == "v1" then []
     else [⟨api.line, "apiVersion has unsupported value " ++ qs api.value⟩])
  ++ (match field n "kind" with
      | none => [reqErr "kind"]
      | some kind =>
        if isStr kind = false then [⟨kind.line, "kind must be string"⟩]
        else if kind.value == "Pod" then []
        else [⟨kind.line, "kind has unsupported value " ++ qs kind.value⟩])

/-- C8 amended: the accumulate document-level check fans out in the
order apiVersion/kind fields, spec (shape and os), metadata, then the
spec.containers checks; hence every metadata error precedes every
containers-check error, but follows the spec shape/os errors. -/
theorem c8_amended_order (n m s : Node)
    (hmap : n.isMapping = true)
    (hm : field n "metadata" = some m) (hs : field n "spec" = some s) :
    validateTopA n
      = topFieldErrsA n ++ validateSpecA s ++ validateMetadataA m
        ++ validateSpecContainersA s := by
  simp [validateTopA, topFieldErrsA, hmap, hm, hs, List.append_assoc]

theorem c8_amended_order_witness :
    validateTopA c8doc
      = topFieldErrsA c8doc
        ++ validateSpecA (.mapping 6
             [ (keyS 6 "os", .scalar 6 "!!str" "mac"),
               (keyS 7 "containers",
                .sequence 8
                  [ .mapping 8
                      [ (keyS 8 "name", .scalar 8 "!!str" "web_app"),
                        (keyS 9 "image", .scalar 9 "!!str" "registry.bigbrother.io/app:v1"),
                        (keyS 10 "resources", .mapping 10 []) ] ]) ])
        ++ validateMetadataA (.mapping 4 [])
        ++ validateSpecContainersA (.mapping 6
             [ (keyS 6 "os", .scalar 6 "!!str" "mac"),
               (keyS 7 "containers",
                .sequence 8
                  [ .mapping 8
                      [ (keyS 8 "name", .scalar 8 "!!str" "web_app"),
                        (keyS 9 "image", .scalar 9 "!!str" "registry.bigbrother.io/app:v1"),
                        (keyS 10 "resources", .mapping 10 []) ] ]) ]) :=
  c8_amended_order c8doc (.mapping 4 []) _ rfl rfl rfl

/-!
## C2: required-field errors have no line, value errors carry one
-/

/-- The property C2 asserts of every recorded error: either it is a
line-less required-field error of the form `<f> is required`, or its
line is the line of a node of the validated tree. -/
def errWf (n : Node) (e : Verr) : Prop :=
  (e.line = 0 ∧ ∃ f, e.msg = f ++ " is required") ∨ e.line ∈ nodeLines n

theorem line_mem_nodeLines (n : Node) : n.line ∈ nodeLines n := by
  cases n <;> simp [nodeLines, Node.line]

theorem nodeLines_pairs_sub (c : List (Node × Node)) (p : Node × Node) (hp : p ∈ c) :
    (∀ x ∈ nodeLines p.1, x ∈ nodeLinesPairs c) ∧
    (∀ x ∈ nodeLines p.2, x ∈ nodeLinesPairs c) := by
  induction c with
  | nil => cases hp
  | cons q qs ih =>
    rcases List.mem_cons.mp hp with rfl | hp
    · constructor <;> intro x hx <;> simp [nodeLinesPairs] <;> tauto
    · have h := ih hp
      constructor <;> intro x hx <;> simp [nodeLinesPairs] <;>
        first
        | exact Or.inr (Or.inr (h.1 x hx))
        | exact Or.inr (Or.inr (h.2 x hx))

theorem nodeLines_elems_sub (c : List Node) (m : Node) (hm : m ∈ c) :
    ∀ x ∈ nodeLines m, x ∈ nodeLinesList c := by
  induction c with
  | nil => cases hm
  | cons q qs ih =>
    rcases List.mem_cons.mp hm with rfl | hm
    · intro x hx; simp [nodeLinesList]; tauto
    · intro x hx; simp [nodeLinesList]; exact Or.inr (ih hm x hx)

theorem pairs_lines_sub (n : Node) (p : Node × Node) (hp : p ∈ n.pairs) :
    (∀ x ∈ nodeLines p.1, x ∈ nodeLines n) ∧
    (∀ x ∈ nodeLines p.2, x ∈ nodeLines n) := by
  cases n with
  | mapping l c =>
    have h := nodeLines_pairs_sub c p hp
    constructor <;> intro x hx <;> simp [nodeLines]
    · exact Or.inr (h.1 x hx)
    · exact Or.inr (h.2 x hx)
  | sequence l c => cases hp
  | scalar l t v => cases hp

theorem elems_lines_sub (n : Node) (m : Node) (hm : m ∈ n.elems) :
    ∀ x ∈ nodeLines m, x ∈ nodeLines n := by
  cases n with
  | mapping l c => cases hm
  | sequence l c =>
    intro x hx
    simp [nodeLines]
    exact Or.inr (nodeLines_elems_sub c m hm x hx)
  | scalar l t v => cases hm

theorem field_some_mem_pairs (n : Node) (k : String) (v : Node)
    (h : field n k = some v) : ∃ p ∈ n.pairs, p.2 = v := by
  cases n with
  | mapping l c =>
    simp only [field, Option.map_eq_some'] at h
    obtain ⟨p, hfind, hv⟩ := h
    exact ⟨p, List.mem_of_find?_eq_some hfind, hv⟩
  | sequence l c => simp [field] at h
  | scalar l t v2 => simp [field] at h

theorem field_lines_sub (n : Node) (k : String) (v : Node)
    (h : field n k = some v) : ∀ x ∈ nodeLines v, x ∈ nodeLines n := by
  obtain ⟨p, hp, hv⟩ := field_some_mem_pairs n k v h
  intro x hx
  exact (pairs_lines_sub n p hp).2 x (hv ▸ hx)

theorem errWf_mono {m n : Node} (sub : ∀ x ∈ nodeLines m, x ∈ nodeLines n)
    {e : Verr} (h : errWf m e) : errWf n e :=
  h.elim Or.inl fun h2 => Or.inr (sub _ h2)

theorem errWf_of_line {n : Node} (m : Node)
    (sub : ∀ x ∈ nodeLines m, x ∈ nodeLines n) (msg : String) :
    errWf n ⟨m.line, msg⟩ := Or.inr (sub _ (line_mem_nodeLines m))

theorem errWf_self (n : Node) (msg : String) : errWf n ⟨n.line, msg⟩ :=
  Or.inr (line_mem_nodeLines n)

theorem errWf_req (n : Node) (f : String) : errWf n (reqErr f) :=
  Or.inl ⟨rfl, f, rfl⟩

theorem mem_collect {f : α → List Verr} {l : List α} {e : Verr}
    (h : e ∈ collect f l) : ∃ x ∈ l, e ∈ f x := by
  induction l with
  | nil => cases h
  | cons x xs ih =>
    rcases List.mem_append.mp h with h1 | h2
    · exact ⟨x, List.mem_cons_self x xs, h1⟩
    · obtain ⟨y, hy, hye⟩ := ih h2
      exact ⟨y, List.mem_cons_of_mem x hy, hye⟩

theorem asInt_line (m : Node) : (asInt m).2.2 = m.line := by
  unfold asInt
  split
  · rfl
  · split <;> rfl

theorem validateRRSetA_errWf (n : Node) : ∀ e ∈ validateRRSetA n, errWf n e := by
  intro e he
  unfold validateRRSetA at he
  split at he
  · simp at he; subst he; exact errWf_self n _
  · obtain ⟨p, hp, hpe⟩ := mem_collect he
    have sub := (pairs_lines_sub n p hp).2
    split at hpe
    · split at hpe
      · simp at hpe; subst hpe; exact errWf_of_line p.2 sub _
      · cases hpe
    · split at hpe
      · split at hpe
        · simp at hpe; subst hpe; exact errWf_of_line p.2 sub _
        · split at hpe
          · simp at hpe; subst hpe; exact errWf_of_line p.2 sub _
          · cases hpe
      · cases hpe

theorem validateResourcesA_errWf (n : Node) : ∀ e ∈ validateResourcesA n, errWf n e := by
  intro e he
  unfold validateResourcesA at he
  split at he
  · simp at he; subst he; exact errWf_self n _
  · rcases List.mem_append.mp he with h | h
    · cases hf : field n "limits" with
      | none => rw [hf] at h; cases h
      | some lim =>
        rw [hf] at h
        exact errWf_mono (field_lines_sub n "limits" lim hf) (validateRRSetA_errWf lim e h)
    · cases hf : field n "requests" with
      | none => rw [hf] at h; cases h
      | some req =>
        rw [hf] at h
        exact errWf_mono (field_lines_sub n "requests" req hf) (validateRRSetA_errWf req e h)

theorem validateProbeA_errWf (short : String) (n : Node) :
    ∀ e ∈ validateProbeA short n, errWf n e := by
  intro e he
  unfold validateProbeA at he
  split at he
  · simp at he; subst he; exact errWf_self n _
  · cases hf : field n "httpGet" with
    | none => simp only [hf] at he; simp at he; subst he; exact errWf_req n _
    | some hg =>
      simp only [hf] at he
      have subhg := field_lines_sub n "httpGet" hg hf
      split at he
      · simp at he; subst he; exact errWf_of_line hg subhg _
      · rcases List.mem_append.mp he with h | h
        · cases hp : field hg "path" with
          | none => simp only [hp] at h; simp at h; subst h; exact errWf_req n _
          | some path =>
            simp only [hp] at h
            have subp := fun x hx => subhg x (field_lines_sub hg "path" path hp x hx)
            split at h
            · simp at h; subst h; exact errWf_of_line path subp _
            · split at h
              · simp at h; subst h; exact errWf_of_line path subp _
              · cases h
        · cases hq : field hg "port" with
          | none => simp only [hq] at h; simp at h; subst h; exact errWf_req n _
          | some prt =>
            simp only [hq] at h
            have subq := fun x hx => subhg x (field_lines_sub hg "port" prt hq x hx)
            rcases hAs : asInt prt with ⟨v, okInt, line⟩
            simp only [hAs] at h
            have hline : line = prt.line := by
              have h2 := asInt_line prt; rw [hAs] at h2; exact h2
            split at h
            · simp at h; subst h; rw [hline]; exact errWf_of_line prt subq _
            · split at h
              · simp at h; subst h; exact errWf_of_line prt subq _
              · cases h

theorem validateContainerPortA_errWf (n : Node) :
    ∀ e ∈ validateContainerPortA n, errWf n e := by
  intro e he
  unfold validateContainerPortA at he
  split at he
  · simp at he; subst he; exact errWf_self n _
  · cases hf : field n "containerPort" with
    | none => simp only [hf] at he; simp at he; subst he; exact errWf_req n _
    | some cp =>
      simp only [hf] at he
      have subc := field_lines_sub n "containerPort" cp hf
      rcases List.mem_append.mp he with h | h
      · rcases hAs : asInt cp with ⟨port, okInt, line⟩
        simp only [hAs] at h
        have hline : line = cp.line := by
          have h2 := asInt_line cp; rw [hAs] at h2; exact h2
        split at h
        · simp at h; subst h; rw [hline]; exact errWf_of_line cp subc _
        · split at h
          · simp at h; subst h; rw [hline]; exact errWf_of_line cp subc _
          · cases h
      · cases hq : field n "protocol" with
        | none => simp only [hq] at h; cases h
        | some proto =>
          simp only [hq] at h
          have subp := field_lines_sub n "protocol" proto hq
          split at h
          · simp at h; subst h; exact errWf_of_line proto subp _
          · split at h
            · cases h
            · simp at h; subst h; exact errWf_of_line proto subp _

theorem validateContainerA_errWf (n : Node) :
    ∀ e ∈ validateContainerA n, errWf n e := by
  intro e he
  unfold validateContainerA at he
  split at he
  · simp at he; subst he; exact errWf_self n _
  · rcases List.mem_append.mp he with he5 | h
    case inr =>
      cases hf : field n "resources" with
      | none => simp only [hf] at h; simp at h; subst h; exact errWf_req n _
      | some res =>
        simp only [hf] at h
        exact errWf_mono (field_lines_sub n "resources" res hf)
          (validateResourcesA_errWf res e h)
    case inl =>
    rcases List.mem_append.mp he5 with he4 | h
    case inr =>
      cases hf : field n "livenessProbe" with
      | none => simp only [hf] at h; cases h
      | some lp =>
        simp only [hf] at h
        exact errWf_mono (field_lines_sub n "livenessProbe" lp hf)
          (validateProbeA_errWf "livenessProbe" lp e h)
    case inl =>
    rcases List.mem_append.mp he4 with he3 | h
    case inr =>
      cases hf : field n "readinessProbe" with
      | none => simp only [hf] at h; cases h
      | some rp =>
        simp only [hf] at h
        exact errWf_mono (field_lines_sub n "readinessProbe" rp hf)
          (validateProbeA_errWf "readinessProbe" rp e h)
    case inl =>
    rcases List.mem_append.mp he3 with he2 | h
    case inr =>
      cases hf : field n "ports" with
      | none => simp only [hf] at h; cases h
      | some ports =>
        simp only [hf] at h
        have sub := field_lines_sub n "ports" ports hf
        split at h
        · simp at h; subst h; exact errWf_of_line ports sub _
        · obtain ⟨x, hx, hxe⟩ := mem_collect h
          exact errWf_mono
            (fun y hy => sub y (elems_lines_sub ports x hx y hy))
            (validateContainerPortA_errWf x e hxe)
    case inl =>
    rcases List.mem_append.mp he2 with h | h
    · cases hf : field n "name" with
      | none => simp only [hf] at h; simp at h; subst h; exact errWf_req n _
      | some name =>
        simp only [hf] at h
        have sub := field_lines_sub n "name" name hf
        split at h
        · simp at h; subst h; exact errWf_of_line name sub _
        · split at h
          · simp at h; subst h; exact errWf_of_line name sub _
          · split at h
            · simp at h; subst h; exact errWf_of_line name sub _
            · cases h
    · cases hf : field n "image" with
      | none => simp only [hf] at h; simp at h; subst h; exact errWf_req n _
      | some img =>
        simp only [hf] at h
        have sub := field_lines_sub n "image" img hf
        split at h
        · simp at h; subst h; exact errWf_of_line img sub _
        · split at h
          · simp at h; subst h; exact errWf_of_line img sub _
          · split at h
            · simp at h; subst h; exact errWf_of_line img sub _
            · cases h

theorem validateSpecContainersA_errWf (n : Node) :
    ∀ e ∈ validateSpecContainersA n, errWf n e := by
  intro e he
  unfold validateSpecContainersA at he
  cases hf : field n "containers" with
  | none => simp only [hf] at he; simp at he; subst he; exact errWf_req n _
  | some cs =>
    simp only [hf] at he
    have sub := field_lines_sub n "containers" cs hf
    split at he
    · simp at he; subst he; exact errWf_of_line cs sub _
    · split at he
      · simp at he; subst he; exact errWf_of_line cs sub _
      · obtain ⟨x, hx, hxe⟩ := mem_collect he
        exact errWf_mono (fun y hy => sub y (elems_lines_sub cs x hx y hy))
          (validateContainerA_errWf x e hxe)

theorem validateSpecA_errWf (n : Node) : ∀ e ∈ validateSpecA n, errWf n e := by
  intro e he
  unfold validateSpecA at he
  split at he
  · simp at he; subst he; exact errWf_self n _
  · cases hf : field n "os" with
    | none => simp only [hf] at he; cases he
    | some osN =>
      simp only [hf] at he
      have sub := field_lines_sub n "os" osN hf
      split at he
      · simp at he; subst he; exact errWf_of_line osN sub _
      · split at he
        · cases he
        · simp at he; subst he; exact errWf_of_line osN sub _

theorem validateMetadataA_errWf (n : Node) : ∀ e ∈ validateMetadataA n, errWf n e := by
  intro e he
  unfold validateMetadataA at he
  split at he
  · simp at he; subst he; exact errWf_self n _
  · rcases List.mem_append.mp he with he2 | h
    case inr =>
      cases hf : field n "labels" with
      | none => simp only [hf] at h; cases h
      | some labels =>
        simp only [hf] at h
        have sub := field_lines_sub n "labels" labels hf
        split at h
        · simp at h; subst h; exact errWf_of_line labels sub _
        · obtain ⟨p, hp, hpe⟩ := mem_collect h
          have subk := fun y hy => sub y ((pairs_lines_sub labels p hp).1 y hy)
          have subv := fun y hy => sub y ((pairs_lines_sub labels p hp).2 y hy)
          rcases List.mem_append.mp hpe with hk | hv
          · split at hk
            · simp at hk; subst hk; exact errWf_of_line p.1 subk _
            · cases hk
          · split at hv
            · simp at hv; subst hv; exact errWf_of_line p.2 subv _
            · cases hv
    case inl =>
    rcases List.mem_append.mp he2 with h | h
    · cases hf : field n "name" with
      | none => simp only [hf] at h; simp at h; subst h; exact errWf_req n _
      | some name =>
        simp only [hf] at h
        have sub := field_lines_sub n "name" name hf
        split at h
        · simp at h; subst h; exact errWf_of_line name sub _
        · split at h
          · simp at h; subst h; exact errWf_of_line name sub _
          · cases h
    · cases hf : field n "namespace" with
      | none => simp only [hf] at h; cases h
      | some ns =>
        simp only [hf] at h
        have sub := field_lines_sub n "namespace" ns hf
        split at h
        · simp at h; subst h; exact errWf_of_line ns sub _
        · cases h

theorem validateTopA_errWf (n : Node) : ∀ e ∈ validateTopA n, errWf n e := by
  intro e he
  unfold validateTopA at he
  split at he
  · simp at he; subst he; exact errWf_self n _
  · rcases List.mem_append.mp he with he4 | h
    case inr =>
      cases hf : field n "spec" with
      | none => simp only [hf] at h; cases h
      | some spec =>
        simp only [hf] at h
        exact errWf_mono (field_lines_sub n "spec" spec hf)
          (validateSpecContainersA_errWf spec e h)
    case inl =>
    rcases List.mem_append.mp he4 with he3 | h
    case inr =>
      cases hf : field n "metadata" with
      | none => simp only [hf] at h; simp at h; subst h; exact errWf_req n _
      | some meta =>
        simp only [hf] at h
        exact errWf_mono (field_lines_sub n "metadata" meta hf)
          (validateMetadataA_errWf meta e h)
    case inl =>
    rcases List.mem_append.mp he3 with he2 | h
    case inr =>
      cases hf : field n "spec" with
      | none => simp only [hf] at h; simp at h; subst h; exact errWf_req n _
      | some spec =>
        simp only [hf] at h
        exact errWf_mono (field_lines_sub n "spec" spec hf)
          (validateSpecA_errWf spec e h)
    case inl =>
    rcases List.mem_append.mp he2 with h | h
    · cases hf : field n "apiVersion" with
      | none => simp only [hf] at h; simp at h; subst h; exact errWf_req n _
      | some api =>
        simp only [hf] at h
        have sub := field_lines_sub n "apiVersion" api hf
        split at h
        · simp at h; subst h; exact errWf_of_line api sub _
        · split at h
          · cases h
          · simp at h; subst h; exact errWf_of_line api sub _
    · cases hf : field n "kind" with
      | none => simp only [hf] at h; simp at h; subst h; exact errWf_req n _
      | some kind =>
        simp only [hf] at h
        have sub := field_lines_sub n "kind" kind hf
        split at h
        · simp at h; subst h; exact errWf_of_line kind sub _
        · split at h
          · cases h
          · simp at h; subst h; exact errWf_of_line kind sub _

theorem error_inj {x e : Verr} (h : (Except.error x : Except Verr Unit) = Except.error e) :
    x = e := by cases h; rfl

theorem seqE_error {a b : Except Verr Unit} {e : Verr} (h : seqE a b = .error e) :
    a = .error e ∨ b = .error e := by
  cases a with
  | error e1 =>
    left
    have h2 : e1 = e := error_inj h
    rw [h2]
  | ok u => right; simpa [seqE] using h

theorem firstErr_error {f : α → Except Verr Unit} {l : List α} {e : Verr}
    (h : firstErr f l = .error e) : ∃ x ∈ l, f x = .error e := by
  induction l with
  | nil => simp [firstErr] at h
  | cons x xs ih =>
    unfold firstErr at h
    cases hx : f x with
    | error e1 =>
      simp only [hx] at h
      exact ⟨x, List.mem_cons_self x xs, by rw [hx, error_inj h]⟩
    | ok u =>
      simp only [hx] at h
      obtain ⟨y, hy, hye⟩ := ih h
      exact ⟨y, List.mem_cons_of_mem x hy, hye⟩

theorem validateRRSetF_errWf (pre : String) (n : Node) (e : Verr)
    (h : validateRRSetF pre n = .error e) : errWf n e := by
  unfold validateRRSetF at h
  split at h
  · rw [← error_inj h]; exact errWf_self n _
  · obtain ⟨p, hp, hpe⟩ := firstErr_error h
    have subk := (pairs_lines_sub n p hp).1
    have subv := (pairs_lines_sub n p hp).2
    split at hpe
    · rw [← error_inj hpe]; exact errWf_of_line p.1 subk _
    · split at hpe
      · split at hpe
        · rw [← error_inj hpe]; exact errWf_of_line p.2 subv _
        · split at hpe
          · rw [← error_inj hpe]; exact errWf_of_line p.2 subv _
          · cases hpe
      · split at hpe
        · split at hpe
          · rw [← error_inj hpe]; exact errWf_of_line p.2 subv _
          · split at hpe
            · rw [← error_inj hpe]; exact errWf_of_line p.2 subv _
            · cases hpe
        · cases hpe

theorem validateResourcesF_errWf (n : Node) (e : Verr)
    (h : validateResourcesF n = .error e) : errWf n e := by
  unfold validateResourcesF at h
  split at h
  · rw [← error_inj h]; exact errWf_self n _
  · rcases seqE_error h with h2 | h2
    · cases hf : field n "limits" with
      | none => simp only [hf] at h2; cases h2
      | some lim =>
        simp only [hf] at h2
        exact errWf_mono (field_lines_sub n "limits" lim hf)
          (validateRRSetF_errWf _ lim e h2)
    · cases hf : field n "requests" with
      | none => simp only [hf] at h2; cases h2
      | some req =>
        simp only [hf] at h2
        exact errWf_mono (field_lines_sub n "requests" req hf)
          (validateRRSetF_errWf _ req e h2)

theorem validateProbeF_errWf (pre : String) (n : Node) (e : Verr)
    (h : validateProbeF pre n = .error e) : errWf n e := by
  unfold validateProbeF at h
  split at h
  · rw [← error_inj h]; exact errWf_self n _
  · cases hf : field n "httpGet" with
    | none => simp only [hf] at h; rw [← error_inj h]; exact errWf_req n _
    | some hg =>
      simp only [hf] at h
      have subhg := field_lines_sub n "httpGet" hg hf
      split at h
      · rw [← error_inj h]; exact errWf_of_line hg subhg _
      · rcases seqE_error h with h2 | h2
        · cases hp : field hg "path" with
          | none => simp only [hp] at h2; rw [← error_inj h2]; exact errWf_req n _
          | some path =>
            simp only [hp] at h2
            have subp := fun x hx => subhg x (field_lines_sub hg "path" path hp x hx)
            split at h2
            · rw [← error_inj h2]; exact errWf_of_line path subp _
            · split at h2
              · rw [← error_inj h2]; exact errWf_of_line path subp _
              · cases h2
        · cases hq : field hg "port" with
          | none => simp only [hq] at h2; rw [← error_inj h2]; exact errWf_req n _
          | some prt =>
            simp only [hq] at h2
            have subq := fun x hx => subhg x (field_lines_sub hg "port" prt hq x hx)
            split at h2
            · rw [← error_inj h2]; exact errWf_of_line prt subq _
            · split at h2
              · rw [← error_inj h2]; exact errWf_of_line prt subq _
              · split at h2
                · rw [← error_inj h2]; exact errWf_of_line prt subq _
                · cases h2

theorem validateContainerPortF_errWf (n : Node) (e : Verr)
    (h : validateContainerPortF n = .error e) : errWf n e := by
  unfold validateContainerPortF at h
  split at h
  · rw [← error_inj h]; exact errWf_self n _
  · cases hf : field n "containerPort" with
    | none => simp only [hf] at h; rw [← error_inj h]; exact errWf_req n _
    | some cp =>
      simp only [hf] at h
      have subc := field_lines_sub n "containerPort" cp hf
      rcases seqE_error h with h2 | h2
      · split at h2
        · rw [← error_inj h2]; exact errWf_of_line cp subc _
        · split at h2
          · rw [← error_inj h2]; exact errWf_of_line cp subc _
          · split at h2
            · rw [← error_inj h2]; exact errWf_of_line cp subc _
            · cases h2
      · cases hq : field n "protocol" with
        | none => simp only [hq] at h2; cases h2
        | some proto =>
          simp only [hq] at h2
          have subp := field_lines_sub n "protocol" proto hq
          split at h2
          · rw [← error_inj h2]; exact errWf_of_line proto subp _
          · split at h2
            · cases h2
            · rw [← error_inj h2]; exact errWf_of_line proto subp _

theorem validateContainerF_errWf (n : Node) (e : Verr)
    (h : validateContainerF n = .error e) : errWf n e := by
  unfold validateContainerF at h
  split at h
  · rw [← error_inj h]; exact errWf_self n _
  · rcases seqE_error h with h2 | h
    · cases hf : field n "name" with
      | none => simp only [hf] at h2; rw [← error_inj h2]; exact errWf_req n _
      | some name =>
        simp only [hf] at h2
        have sub := field_lines_sub n "name" name hf
        split at h2
        · rw [← error_inj h2]; exact errWf_of_line name sub _
        · split at h2
          · rw [← error_inj h2]; exact errWf_of_line name sub _
          · cases h2
    rcases seqE_error h with h2 | h
    · cases hf : field n "image" with
      | none => simp only [hf] at h2; rw [← error_inj h2]; exact errWf_req n _
      | some img =>
        simp only [hf] at h2
        have sub := field_lines_sub n "image" img hf
        split at h2
        · rw [← error_inj h2]; exact errWf_of_line img sub _
        · split at h2
          · rw [← error_inj h2]; exact errWf_of_line img sub _
          · split at h2
            · rw [← error_inj h2]; exact errWf_of_line img sub _
            · split at h2
              · rw [← error_inj h2]; exact errWf_of_line img sub _
              · cases h2
    rcases seqE_error h with h2 | h
    · cases hf : field n "ports" with
      | none => simp only [hf] at h2; cases h2
      | some ports =>
        simp only [hf] at h2
        have sub := field_lines_sub n "ports" ports hf
        split at h2
        · rw [← error_inj h2]; exact errWf_of_line ports sub _
        · obtain ⟨x, hx, hxe⟩ := firstErr_error h2
          exact errWf_mono (fun y hy => sub y (elems_lines_sub ports x hx y hy))
            (validateContainerPortF_errWf x e hxe)
    rcases seqE_error h with h2 | h
    · cases hf : field n "readinessProbe" with
      | none => simp only [hf] at h2; cases h2
      | some rp =>
        simp only [hf] at h2
        exact errWf_mono (field_lines_sub n "readinessProbe" rp hf)
          (validateProbeF_errWf _ rp e h2)
    rcases seqE_error h with h2 | h2
    · cases hf : field n "livenessProbe" with
      | none => simp only [hf] at h2; cases h2
      | some lp =>
        simp only [hf] at h2
        exact errWf_mono (field_lines_sub n "livenessProbe" lp hf)
          (validateProbeF_errWf _ lp e h2)
    · cases hf : field n "resources" with
      | none => simp only [hf] at h2; rw [← error_inj h2]; exact errWf_req n _
      | some res =>
        simp only [hf] at h2
        exact errWf_mono (field_lines_sub n "resources" res hf)
          (validateResourcesF_errWf res e h2)

theorem validateSpecF_errWf (n : Node) (e : Verr)
    (h : validateSpecF n = .error e) : errWf n e := by
  unfold validateSpecF at h
  split at h
  · rw [← error_inj h]; exact errWf_self n _
  · rcases seqE_error h with h2 | h2
    · cases hf : field n "os" with
      | none => simp only [hf] at h2; cases h2
      | some osN =>
        simp only [hf] at h2
        have sub := field_lines_sub n "os" osN hf
        split at h2
        · rw [← error_inj h2]; exact errWf_of_line osN sub _
        · split at h2
          · cases h2
          · rw [← error_inj h2]; exact errWf_of_line osN sub _
    · cases hf : field n "containers" with
      | none => simp only [hf] at h2; rw [← error_inj h2]; exact errWf_req n _
      | some cs =>
        simp only [hf] at h2
        have sub := field_lines_sub n "containers" cs hf
        split at h2
        · rw [← error_inj h2]; exact errWf_of_line cs sub _
        · split at h2
          · rw [← error_inj h2]; exact errWf_of_line cs sub _
          · obtain ⟨x, hx, hxe⟩ := firstErr_error h2
            exact errWf_mono (fun y hy => sub y (elems_lines_sub cs x hx y hy))
              (validateContainerF_errWf x e hxe)

theorem validateMetadataF_errWf (n : Node) (e : Verr)
    (h : validateMetadataF n = .error e) : errWf n e := by
  unfold validateMetadataF at h
  split at h
  · rw [← error_inj h]; exact errWf_self n _
  · rcases seqE_error h with h2 | h
    · cases hf : field n "name" with
      | none => simp only [hf] at h2; rw [← error_inj h2]; exact errWf_req n _
      | some name =>
        simp only [hf] at h2
        have sub := field_lines_sub n "name" name hf
        split at h2
        · rw [← error_inj h2]; exact errWf_of_line name sub _
        · cases h2
    rcases seqE_error h with h2 | h2
    · cases hf : field n "namespace" with
      | none => simp only [hf] at h2; cases h2
      | some ns =>
        simp only [hf] at h2
        have sub := field_lines_sub n "namespace" ns hf
        split at h2
        · rw [← error_inj h2]; exact errWf_of_line ns sub _
        · cases h2
    · cases hf : field n "labels" with
      | none => simp only [hf] at h2; cases h2
      | some labels =>
        simp only [hf] at h2
        have sub := field_lines_sub n "labels" labels hf
        split at h2
        · rw [← error_inj h2]; exact errWf_of_line labels sub _
        · obtain ⟨p, hp, hpe⟩ := firstErr_error h2
          have subk := fun y hy => sub y ((pairs_lines_sub labels p hp).1 y hy)
          have subv := fun y hy => sub y ((pairs_lines_sub labels p hp).2 y hy)
          split at hpe
          · rw [← error_inj hpe]; exact errWf_of_line p.1 subk _
          · split at hpe
            · rw [← error_inj hpe]; exact errWf_of_line p.2 subv _
            · cases hpe

theorem validateTopLevelF_errWf (n : Node) (e : Verr)
    (h : validateTopLevelF n = .error e) : errWf n e := by
  unfold validateTopLevelF at h
  split at h
  · rw [← error_inj h]; exact errWf_self n _
  · rcases seqE_error h with h2 | h
    · cases hf : field n "apiVersion" with
      | none => simp only [hf] at h2; rw [← error_inj h2]; exact errWf_req n _
      | some api =>
        simp only [hf] at h2
        have sub := field_lines_sub n "apiVersion" api hf
        split at h2
        · rw [← error_inj h2]; exact errWf_of_line api sub _
        · split at h2
          · cases h2
          · rw [← error_inj h2]; exact errWf_of_line api sub _
    rcases seqE_error h with h2 | h
    · cases hf : field n "kind" with
      | none => simp only [hf] at h2; rw [← error_inj h2]; exact errWf_req n _
      | some kind =>
        simp only [hf] at h2
        have sub := field_lines_sub n "kind" kind hf
        split at h2
        · rw [← error_inj h2]; exact errWf_of_line kind sub _
        · split at h2
          · cases h2
          · rw [← error_inj h2]; exact errWf_of_line kind sub _
    rcases seqE_error h with h2 | h2
    · cases hf : field n "metadata" with
      | none => simp only [hf] at h2; rw [← error_inj h2]; exact errWf_req n _
      | some meta =>
        simp only [hf] at h2
        exact errWf_mono (field_lines_sub n "metadata" meta hf)
          (validateMetadataF_errWf meta e h2)
    · cases hf : field n "spec" with
      | none => simp only [hf] at h2; rw [← error_inj h2]; exact errWf_req n _
      | some spec =>
        simp only [hf] at h2
        exact errWf_mono (field_lines_sub n "spec" spec hf)
          (validateSpecF_errWf spec e h2)

/-- C2: over a tree whose line numbers are all positive (as the YAML
parser guarantees), every recorded error of either variant is either a
line-less `<field> is required` error or carries the (positive) line
of a node of the tree. -/
theorem c2_required_vs_line (n : Node) (hpos : ∀ l ∈ nodeLines n, 0 < l) :
    (∀ e ∈ validateTopA n,
       (e.line = 0 ∧ ∃ f, e.msg = f ++ " is required") ∨
       (0 < e.line ∧ e.line ∈ nodeLines n)) ∧
    (∀ e, validateTopLevelF n = .error e →
       (e.line = 0 ∧ ∃ f, e.msg = f ++ " is required") ∨
       (0 < e.line ∧ e.line ∈ nodeLines n)) := by
  constructor
  · intro e he
    rcases validateTopA_errWf n e he with h | h
    · exact Or.inl h
    · exact Or.inr ⟨hpos _ h, h⟩
  · intro e he
    rcases validateTopLevelF_errWf n e he with h | h
    · exact Or.inl h
    · exact Or.inr ⟨hpos _ h, h⟩

/-- Witness for C2: the empty-mapping document, whose first recorded
error is the line-less `apiVersion is required`. -/
theorem c2_required_vs_line_witness :
    ((reqErr "apiVersion").line = 0 ∧
     ∃ f, (reqErr "apiVersion").msg = f ++ " is required") ∨
    (0 < (reqErr "apiVersion").line ∧
     (reqErr "apiVersion").line ∈ nodeLines (.mapping 1 [])) :=
  (c2_required_vs_line (.mapping 1 []) (by decide)).1 (reqErr "apiVersion") (by decide)

/-!
## C10: acceptance agreement of the two variants
-/

/-- A document valid everywhere except that resources.limits.cpu is a
string-tagged scalar "80": main.go parses the text and accepts, while
part_000 requires the `int` tag and records an error. -/
def c10doc : Node :=
  .mapping 1
    [ (keyS 1 "apiVersion", .scalar 1 "!!str" "v1"),
      (keyS 2 "kind", .scalar 2 "!!str" "Pod"),
      (keyS 3 "metadata", .mapping 4 [(keyS 4 "name", .scalar 4 "!!str" "web")]),
      (keyS 5 "spec",
        .mapping 6
          [ (keyS 6 "containers",
             .sequence 7
               [ .mapping 7
                   [ (keyS 7 "name", .scalar 7 "!!str" "web_app"),
                     (keyS 8 "image", .scalar 8 "!!str" "registry.bigbrother.io/app:v1"),
                     (keyS 9 "resources",
                      .mapping 10
                        [ (keyS 10 "limits",
                           .mapping 11 [(keyS 11 "cpu", .scalar 11 "!!str" "80")]) ]) ] ]) ]) ]

/-- C10 counterexample: on `c10doc` the fail-fast variant accepts
(exit 0) while the accumulate-all variant records a cpu error (exit
1): the two variants disagree on acceptance. -/
theorem c10_counterexample :
    validateTopLevelF c10doc = .ok () ∧
    validateTopA c10doc = [⟨11, "cpu must be int"⟩] ∧
    (runF "pod.yaml" c10doc).2 = 0 ∧
    (runA "pod.yaml" c10doc).2 = 1 :=
  ⟨rfl, rfl, rfl, rfl⟩

/-- A scalar is int-tagged exactly when it is a scalar whose trimmed
text `strconv.Atoi` accepts: the condition under which part_000's
`isInt` test and main.go's parse-based cpu test agree. -/
def cpuAligned (v : Node) : Bool :=
  isInt v == (v.isScalar && (atoi (trimSpace v.value)).isSome)

/-- A resource quantity-set whose keys are string-tagged scalars and
whose cpu entries are tag-aligned; the region where the two variants'
`validateRRSet` checks differ. -/
def rrsetWfB (n : Node) : Bool :=
  match n with
  | .mapping _ c => c.all fun p => isStr p.1 && (!(p.1.value == "cpu") || cpuAligned p.2)
  | _ => true

/-- Both quantity-sets of a container's resources field are aligned. -/
def containerRRWfB (c : Node) : Bool :=
  match field c "resources" with
  | none => true
  | some res =>
      (match field res "limits" with
       | none => true
       | some lim => rrsetWfB lim) &&
      (match field res "requests" with
       | none => true
       | some req => rrsetWfB req)

/-- All containers of a spec node have aligned quantity-sets. -/
def specRRWfB (s : Node) : Bool :=
  match field s "containers" with
  | none => true
  | some cs => cs.elems.all containerRRWfB

/-- All containers of the document have aligned quantity-sets. -/
def docRRWfB (n : Node) : Bool :=
  match field n "spec" with
  | none => true
  | some s => specRRWfB s

theorem seqE_ok {a b : Except Verr Unit} :
    seqE a b = .ok () ↔ (a = .ok () ∧ b = .ok ()) := by
  cases a with
  | error e => simp [seqE]
  | ok u => cases u; simp [seqE]

theorem firstErr_ok_iff_collect_nil {f : α → Except Verr Unit} {g : α → List Verr}
    {l : List α} (h : ∀ x ∈ l, (f x = .ok () ↔ g x = [])) :
    (firstErr f l = .ok ()) ↔ collect g l = [] := by
  induction l with
  | nil => simp [firstErr, collect]
  | cons x xs ih =>
    have hx := h x (List.mem_cons_self x xs)
    have hxs := ih fun y hy => h y (List.mem_cons_of_mem x hy)
    unfold firstErr collect
    cases hfx : f x with
    | error e =>
      simp only [hfx]
      constructor
      · intro hc; cases hc
      · intro hc
        have h2 := (List.append_eq_nil.mp hc).1
        rw [hx.mpr h2] at hfx
        cases hfx
    | ok u =>
      cases u
      simp only [hfx]
      have hgx : g x = [] := hx.mp hfx
      simp [hgx, hxs]

theorem snakeAux_mem (l : List Char) : ∀ (prev : Bool), snakeAux prev l = true →
    ∀ c ∈ l, isSnakeChar c = true ∨ c.toNat = 95 := by
  induction l with
  | nil => intro prev _ c hc; cases hc
  | cons a as ih =>
    intro prev h c hc
    unfold snakeAux at h
    split at h
    case isTrue ha =>
      rcases List.mem_cons.mp hc with rfl | hc
      · exact Or.inl ha
      · exact ih true h c hc
    case isFalse ha =>
      split at h
      case isTrue hu =>
        rcases List.mem_cons.mp hc with rfl | hc
        · right; simpa using hu
        · rw [Bool.and_eq_true] at h
          exact ih false h.2 c hc
      case isFalse => cases h

theorem snakeMatch_data_ne_nil {s : String} (h : snakeMatch s = true) :
    s.data ≠ [] := by
  intro hd
  unfold snakeMatch at h
  rw [hd] at h
  cases h

theorem snake_char_not_space (c : Char)
    (h : isSnakeChar c = true ∨ c.toNat = 95) : goIsSpace c = false := by
  have h2 : (97 ≤ c.toNat ∧ c.toNat ≤ 122) ∨ (48 ≤ c.toNat ∧ c.toNat ≤ 57) ∨
      c.toNat = 95 := by
    rcases h with h | h
    · simp only [isSnakeChar, Bool.or_eq_true, Bool.and_eq_true, decide_eq_true_eq] at h
      tauto
    · tauto
  simp [goIsSpace]
  omega

theorem dropWhile_eq_self_of_not {p : Char → Bool} (l : List Char)
    (h : ∀ c ∈ l, p c = false) : l.dropWhile p = l := by
  cases l with
  | nil => rfl
  | cons a as => simp [List.dropWhile_cons, h a (List.mem_cons_self a as)]

theorem trimSpace_eq_self {s : String} (h : ∀ c ∈ s.data, goIsSpace c = false) :
    trimSpace s = s := by
  unfold trimSpace
  rw [dropWhile_eq_self_of_not _ h,
    dropWhile_eq_self_of_not _ (fun c hc => h c (List.mem_reverse.mp hc)),
    List.reverse_reverse]

theorem snakeMatch_trim_ne {v : String} (h : snakeMatch v = true) :
    (trimSpace v == "") = false := by
  have hns : ∀ c ∈ v.data, goIsSpace c = false :=
    fun c hc => snake_char_not_space c (snakeAux_mem v.data false h c hc)
  rw [trimSpace_eq_self hns]
  have hd := snakeMatch_data_ne_nil h
  simp only [beq_eq_false_iff_ne, ne_eq]
  intro heq
  apply hd
  rw [heq]

theorem portF_ok_iff_portA_nil (n : Node) :
    validateContainerPortF n = .ok () ↔ validateContainerPortA n = [] := by
  unfold validateContainerPortF validateContainerPortA
  by_cases h1 : n.isMapping = false
  · simp [h1]
  · cases hf : field n "containerPort" with
    | none => simp [h1, hf]
    | some cp =>
      by_cases hs : cp.isScalar = false
      · simp [h1, hf, hs, asInt, toInt, seqE_ok]
      · cases hat : atoi (trimSpace cp.value) with
        | none => simp [h1, hf, hs, asInt, toInt, hat, seqE_ok]
        | some p =>
          by_cases hr : p ≤ 0 ∨ 65536 ≤ p
          · rcases hr with hr | hr <;>
              simp [h1, hf, hs, asInt, toInt, hat, hr, seqE_ok]
          · rw [not_or] at hr
            cases hq : field n "protocol" with
            | none => simp [h1, hf, hs, asInt, toInt, hat, hr.1, hr.2, hq, seqE_ok]
            | some proto =>
              by_cases hps : isStr proto = false
              · simp [h1, hf, hs, asInt, toInt, hat, hr.1, hr.2, hq, hps, seqE_ok]
              · by_cases hpv : (toUpperA proto.value == "TCP"
                    || toUpperA proto.value == "UDP") = true
                · simp [h1, hf, hs, asInt, toInt, hat, hr.1, hr.2, hq, hps, hpv, seqE_ok]
                · simp [h1, hf, hs, asInt, toInt, hat, hr.1, hr.2, hq, hps, hpv, seqE_ok]

theorem rrsetF_ok_iff_rrsetA_nil (pre : String) (n : Node) (hwf : rrsetWfB n = true) :
    validateRRSetF pre n = .ok () ↔ validateRRSetA n = [] := by
  cases n with
  | sequence l c => simp [validateRRSetF, validateRRSetA, Node.isMapping]
  | scalar l t v => simp [validateRRSetF, validateRRSetA, Node.isMapping]
  | mapping l c =>
    unfold rrsetWfB at hwf
    unfold validateRRSetF validateRRSetA
    simp only [Node.isMapping, Node.pairs]
    rw [if_neg (by simp), if_neg (by simp)]
    apply firstErr_ok_iff_collect_nil
    intro p hp
    have hw := List.all_eq_true.mp hwf p hp
    rw [Bool.and_eq_true] at hw
    obtain ⟨hk, hcpu⟩ := hw
    by_cases hc : (p.1.value == "cpu") = true
    · have hal : cpuAligned p.2 = true := by
        rcases Bool.or_eq_true _ _ ▸ hcpu with h | h
        · rw [hc] at h; cases h
        · exact h
      have hal2 : isInt p.2 = (p.2.isScalar && (atoi (trimSpace p.2.value)).isSome) :=
        eq_of_beq hal
      by_cases hs : p.2.isScalar = false
      · simp [hk, hc, hs, hal2, toInt]
      · cases hat : atoi (trimSpace p.2.value) with
        | none => simp [hk, hc, hs, hal2, hat, toInt]
        | some i => simp [hk, hc, hs, hal2, hat, toInt]
    · by_cases hm : (p.1.value == "memory") = true
      · by_cases hvs : isStr p.2 = false
        · simp [hk, hc, hm, hvs]
        · by_cases hmm : memMatch p.2.value = false
          · simp [hk, hc, hm, hvs, hmm]
          · simp [hk, hc, hm, hvs, hmm]
      · simp [hk, hc, hm]

theorem resourcesF_ok_iff_resourcesA_nil (res : Node)
    (hl : ∀ lim, field res "limits" = some lim → rrsetWfB lim = true)
    (hr : ∀ req, field res "requests" = some req → rrsetWfB req = true) :
    validateResourcesF res = .ok () ↔ validateResourcesA res = [] := by
  unfold validateResourcesF validateResourcesA
  by_cases h1 : res.isMapping = false
  · simp [h1]
  · cases hfl : field res "limits" with
    | none =>
      cases hfr : field res "requests" with
      | none => simp [h1, hfl, hfr, seqE_ok]
      | some req =>
        simp [h1, hfl, hfr, seqE_ok,
          rrsetF_ok_iff_rrsetA_nil "containers.resources.requests" req (hr req hfr)]
    | some lim =>
      cases hfr : field res "requests" with
      | none =>
        simp [h1, hfl, hfr, seqE_ok,
          rrsetF_ok_iff_rrsetA_nil "containers.resources.limits" lim (hl lim hfl)]
      | some req =>
        simp [h1, hfl, hfr, seqE_ok,
          rrsetF_ok_iff_rrsetA_nil "containers.resources.limits" lim (hl lim hfl),
          rrsetF_ok_iff_rrsetA_nil "containers.resources.requests" req (hr req hfr)]

theorem probeF_ok_iff_probeA_nil (pre short : String) (n : Node) :
    validateProbeF pre n = .ok () ↔ validateProbeA short n = [] := by
  unfold validateProbeF validateProbeA
  by_cases h1 : n.isMapping = false
  · simp [h1]
  · cases hf : field n "httpGet" with
    | none => simp [h1, hf]
    | some hg =>
      by_cases h2 : hg.isMapping = false
      · simp [h1, hf, h2]
      · cases hp : field hg "path" with
        | none => simp [h1, hf, h2, hp, seqE_ok]
        | some path =>
          by_cases hps : isStr path = false
          · simp [h1, hf, h2, hp, hps, seqE_ok]
          · by_cases hpp : startsWithS path.value "/" = false
            · simp [h1, hf, h2, hp, hps, hpp, seqE_ok]
            · cases hq : field hg "port" with
              | none => simp [h1, hf, h2, hp, hps, hpp, hq, seqE_ok]
              | some prt =>
                by_cases hsc : prt.isScalar = false
                · simp [h1, hf, h2, hp, hps, hpp, hq, hsc, asInt, toInt, seqE_ok]
                · cases hat : atoi (trimSpace prt.value) with
                  | none =>
                    simp [h1, hf, h2, hp, hps, hpp, hq, hsc, hat, asInt, toInt, seqE_ok]
                  | some p =>
                    by_cases hrg : p ≤ 0 ∨ 65536 ≤ p
                    · rcases hrg with hrg | hrg <;>
                        simp [h1, hf, h2, hp, hps, hpp, hq, hsc, hat, hrg, asInt,
                          toInt, seqE_ok]
                    · rw [not_or] at hrg
                      simp [h1, hf, h2, hp, hps, hpp, hq, hsc, hat, hrg.1, hrg.2,
                        asInt, toInt, seqE_ok]

theorem containerF_ok_iff_containerA_nil (c : Node) (hwf : containerRRWfB c = true) :
    validateContainerF c = .ok () ↔ validateContainerA c = [] := by
  have b1 : ((match field c "name" with
       | none => .error (reqErr "containers.name")
       | some name =>
         if isStr name = false then .error ⟨name.line, "containers.name must be string"⟩
         else if snakeMatch name.value = false then
           .error ⟨name.line, "containers.name has invalid format " ++ qs name.value⟩
         else .ok ()) = (.ok () : Except Verr Unit)) ↔
      ((match field c "name" with
       | none => [reqErr "name"]
       | some name =>
         if isStr name = false then [⟨name.line, "name must be string"⟩]
         else if trimSpace name.value == "" then [⟨name.line, "name is required"⟩]
         else if snakeMatch name.value = false then
           [⟨name.line, "name has invalid format " ++ qs name.value⟩]
         else []) = ([] : List Verr)) := by
    cases hn : field c "name" with
    | none => simp
    | some name =>
      by_cases hs : isStr name = false
      · simp [hs]
      · by_cases hsn : snakeMatch name.value = false
        · by_cases ht : (trimSpace name.value == "") = true
          · simp [hs, hsn, ht]
          · simp [hs, hsn, ht]
        · have ht : (trimSpace name.value == "") = false :=
            snakeMatch_trim_ne (Bool.not_eq_false _ ▸ hsn)
          simp [hs, hsn, ht]
  have b2 : ((match field c "image" with
       | none => .error (reqErr "containers.image")
       | some img =>
         if isStr img = false then .error ⟨img.line, "containers.image must be string"⟩
         else if startsWithS img.value "registry.bigbrother.io/" = false then
           .error ⟨img.line, "containers.image has invalid format " ++ qs img.value⟩
         else if containsCh img.value.data 47 = false then
           .error ⟨img.line, "containers.image has invalid format " ++ qs img.value⟩
         else if containsCh (afterLastSlash img.value.data) 58 = false then
           .error ⟨img.line, "containers.image has invalid format " ++ qs img.value⟩
         else .ok ()) = (.ok () : Except Verr Unit)) ↔
      ((match field c "image" with
       | none => [reqErr "image"]
       | some img =>
         if isStr img = false then [⟨img.line, "image must be string"⟩]
         else if startsWithS img.value "registry.bigbrother.io/" = false then
           [⟨img.line, "image has invalid format " ++ qs img.value⟩]
         else if containsCh (afterLastSlash img.value.data) 58 = false then
           [⟨img.line, "image has invalid format " ++ qs img.value⟩]
         else []) = ([] : List Verr)) := by
    cases hi : field c "image" with
    | none => simp
    | some img =>
      by_cases his : isStr img = false
      · simp [his]
      · by_cases hip : startsWithS img.value "registry.bigbrother.io/" = false
        · simp [his, hip]
        · have h47 : containsCh img.value.data 47 = true :=
            startsWithL_containsCh ("registry.bigbrother.io/".data) 47 img.value.data
              (Bool.not_eq_false _ ▸ hip) (by rfl)
          by_cases hic : containsCh (afterLastSlash img.value.data) 58 = false
          · simp [his, hip, h47, hic]
          · simp [his, hip, h47, hic]
  have b3 : ((match field c "ports" with
       | none => .ok ()
       | some ports =>
         if ports.isSequence = false then
           .error ⟨ports.line, "containers.ports must be array"⟩
         else firstErr validateContainerPortF ports.elems) = (.ok () : Except Verr Unit)) ↔
      ((match field c "ports" with
       | none => []
       | some ports =>
         if ports.isSequence = false then [⟨ports.line, "ports must be array"⟩]
         else collect validateContainerPortA ports.elems) = ([] : List Verr)) := by
    cases hpo : field c "ports" with
    | none => simp
    | some ports =>
      by_cases hsq : ports.isSequence = false
      · simp [hsq]
      · simp only [if_neg hsq]
        exact firstErr_ok_iff_collect_nil fun x _ => portF_ok_iff_portA_nil x
  have b4 : ((match field c "readinessProbe" with
       | none => .ok ()
       | some rp => validateProbeF "containers.readinessProbe" rp)
         = (.ok () : Except Verr Unit)) ↔
      ((match field c "readinessProbe" with
       | none => []
       | some rp => validateProbeA "readinessProbe" rp) = ([] : List Verr)) := by
    cases hrp : field c "readinessProbe" with
    | none => simp
    | some rp => exact probeF_ok_iff_probeA_nil "containers.readinessProbe" "readinessProbe" rp
  have b5 : ((match field c "livenessProbe" with
       | none => .ok ()
       | some lp => validateProbeF "containers.livenessProbe" lp)
         = (.ok () : Except Verr Unit)) ↔
      ((match field c "livenessProbe" with
       | none => []
       | some lp => validateProbeA "livenessProbe" lp) = ([] : List Verr)) := by
    cases hlp : field c "livenessProbe" with
    | none => simp
    | some lp => exact probeF_ok_iff_probeA_nil "containers.livenessProbe" "livenessProbe" lp
  have b6 : ((match field c "resources" with
       | none => .error (reqErr "containers.resources")
       | some res => validateResourcesF res) = (.ok () : Except Verr Unit)) ↔
      ((match field c "resources" with
       | none => [reqErr "resources"]
       | some res => validateResourcesA res) = ([] : List Verr)) := by
    cases hres : field c "resources" with
    | none => simp
    | some res =>
      have hwf2 := hwf
      unfold containerRRWfB at hwf2
      simp only [hres] at hwf2
      rw [Bool.and_eq_true] at hwf2
      have hll : ∀ lim, field res "limits" = some lim → rrsetWfB lim = true := by
        intro lim hfl
        have h3 := hwf2.1
        simp only [hfl] at h3
        exact h3
      have hrr : ∀ req, field res "requests" = some req → rrsetWfB req = true := by
        intro req hfr
        have h3 := hwf2.2
        simp only [hfr] at h3
        exact h3
      exact resourcesF_ok_iff_resourcesA_nil res hll hrr
  unfold validateContainerF validateContainerA
  by_cases h1 : c.isMapping = false
  · simp [h1]
  · rw [if_neg h1, if_neg h1]
    simp only [seqE_ok, List.append_eq_nil]
    rw [b1, b2, b3, b4, b5, b6]
    tauto

theorem metadataF_ok_iff_metadataA_nil (m : Node) :
    validateMetadataF m = .ok () ↔ validateMetadataA m = [] := by
  have b1 : ((match field m "name" with
       | none => .error (reqErr "metadata.name")
       | some name =>
         if isStr name = false || trimSpace name.value == "" then
           .error ⟨name.line, "metadata.name must be string"⟩
         else .ok ()) = (.ok () : Except Verr Unit)) ↔
      ((match field m "name" with
       | none => [reqErr "name"]
       | some name =>
         if isStr name = false then [⟨name.line, "name must be string"⟩]
         else if trimSpace name.value == "" then [⟨name.line, "name is required"⟩]
         else []) = ([] : List Verr)) := by
    cases hn : field m "name" with
    | none => simp
    | some name =>
      by_cases hs : isStr name = false
      · simp [hs]
      · by_cases ht : (trimSpace name.value == "") = true
        · simp [hs, ht]
        · simp [hs, ht]
  have b2 : ((match field m "namespace" with
       | none => .ok ()
       | some ns =>
         if isStr ns = false then .error ⟨ns.line, "metadata.namespace must be string"⟩
         else .ok ()) = (.ok () : Except Verr Unit)) ↔
      ((match field m "namespace" with
       | none => []
       | some ns =>
         if isStr ns = false then [⟨ns.line, "namespace must be string"⟩] else [])
        = ([] : List Verr)) := by
    cases hns : field m "namespace" with
    | none => simp
    | some ns =>
      by_cases hs : isStr ns = false
      · simp [hs]
      · simp [hs]
  have b3 : ((match field m "labels" with
       | none => .ok ()
       | some labels =>
         if labels.isMapping = false then .error ⟨labels.line, "metadata.labels must be object"⟩
         else
           firstErr (fun p =>
             if isStr p.1 = false then .error ⟨p.1.line, "metadata.labels key must be string"⟩
             else if isStr p.2 = false then .error ⟨p.2.line, "metadata.labels value must be string"⟩
             else .ok ()) labels.pairs) = (.ok () : Except Verr Unit)) ↔
      ((match field m "labels" with
       | none => []
       | some labels =>
         if labels.isMapping = false then [⟨labels.line, "labels must be object"⟩]
         else
           collect (fun p =>
             (if isStr p.1 = false then [⟨p.1.line, "labels key must be string"⟩] else [])
             ++ (if isStr p.2 = false then [⟨p.2.line, "labels value must be string"⟩] else []))
             labels.pairs) = ([] : List Verr)) := by
    cases hl : field m "labels" with
    | none => simp
    | some labels =>
      by_cases hm2 : labels.isMapping = false
      · simp [hm2]
      · simp only [if_neg hm2]
        apply firstErr_ok_iff_collect_nil
        intro p _
        by_cases hk : isStr p.1 = false
        · simp [hk]
        · by_cases hv : isStr p.2 = false
          · simp [hk, hv]
          · simp [hk, hv]
  unfold validateMetadataF validateMetadataA
  by_cases h1 : m.isMapping = false
  · simp [h1]
  · rw [if_neg h1, if_neg h1]
    simp only [seqE_ok, List.append_eq_nil]
    rw [b1, b2, b3]
    tauto

theorem specF_ok_iff_specA_nil (s : Node) (hwf : specRRWfB s = true) :
    validateSpecF s = .ok () ↔
      (validateSpecA s = [] ∧ validateSpecContainersA s = []) := by
  have bos : ((match field s "os" with
       | none => .ok ()
       | some osN =>
         if isStr osN = false then .error ⟨osN.line, "spec.os must be string"⟩
         else if toLowerA osN.value == "linux" || toLowerA osN.value == "windows" then .ok ()
         else .error ⟨osN.line, "spec.os has unsupported value " ++ qs osN.value⟩)
        = (.ok () : Except Verr Unit)) ↔
      ((match field s "os" with
       | none => []
       | some osN =>
         if isStr osN = false then [⟨osN.line, "os must be string"⟩]
         else if toLowerA osN.value == "linux" || toLowerA osN.value == "windows" then []
         else [⟨osN.line, "os has unsupported value " ++ qs osN.value⟩])
        = ([] : List Verr)) := by
    cases ho : field s "os" with
    | none => simp
    | some osN =>
      by_cases hs2 : isStr osN = false
      · simp [hs2]
      · by_cases hv : (toLowerA osN.value == "linux" || toLowerA osN.value == "windows") = true
        · simp [hs2, hv]
        · simp [hs2, hv]
  have bcs : ((match field s "containers" with
       | none => .error (reqErr "spec.containers")
       | some cs =>
         if cs.isSequence = false then .error ⟨cs.line, "spec.containers must be array"⟩
         else if cs.elems.isEmpty then .error ⟨cs.line, "spec.containers value out of range"⟩
         else firstErr validateContainerF cs.elems) = (.ok () : Except Verr Unit)) ↔
      validateSpecContainersA s = [] := by
    unfold validateSpecContainersA
    cases hc : field s "containers" with
    | none => simp
    | some cs =>
      by_cases hsq : cs.isSequence = false
      · simp [hsq]
      · by_cases hemp : cs.elems.isEmpty = true
        · simp [hsq, hemp]
        · simp only [if_neg hsq, if_neg hemp]
          apply firstErr_ok_iff_collect_nil
          intro x hx
          apply containerF_ok_iff_containerA_nil
          have hwf2 := hwf
          unfold specRRWfB at hwf2
          simp only [hc] at hwf2
          exact List.all_eq_true.mp hwf2 x hx
  unfold validateSpecF validateSpecA
  by_cases h1 : s.isMapping = false
  · simp only [if_pos h1]
    constructor
    · intro h; cases h
    · intro h
      exact absurd h.1 (by simp)
  · rw [if_neg h1, if_neg h1]
    simp only [seqE_ok]
    rw [bos, bcs]

/-- C10 amended: on every tree whose resource quantity-sets have
string-tagged scalar keys and whose cpu entries are int-tagged exactly
when their trimmed text parses as an integer, the fail-fast variant
succeeds iff the accumulate-all variant records zero errors. -/
theorem c10_amended_acceptance (n : Node) (hwf : docRRWfB n = true) :
    validateTopLevelF n = .ok () ↔ validateTopA n = [] := by
  have bapi : ((match field n "apiVersion" with
       | none => .error (reqErr "apiVersion")
       | some api =>
         if isStr api = false then .error ⟨api.line, "apiVersion must be string"⟩
         else if api.value == "v1" then .ok ()
         else .error ⟨api.line, "apiVersion has unsupported value " ++ qs api.value⟩)
        = (.ok () : Except Verr Unit)) ↔
      ((match field n "apiVersion" with
       | none => [reqErr "apiVersion"]
       | some api =>
         if isStr api = false then [⟨api.line, "apiVersion must be string"⟩]
         else if api.value == "v1" then []
         else [⟨api.line, "apiVersion has unsupported value " ++ qs api.value⟩])
        = ([] : List Verr)) := by
    cases hf : field n "apiVersion" with
    | none => simp
    | some api =>
      by_cases hs : isStr api = false
      · simp [hs]
      · by_cases hv : (api.value == "v1") = true
        · simp [hs, hv]
        · simp [hs, hv]
  have bkind : ((match field n "kind" with
       | none => .error (reqErr "kind")
       | some kind =>
         if isStr kind = false then .error ⟨kind.line, "kind must be string"⟩
         else if kind.value == "Pod" then .ok ()
         else .error ⟨kind.line, "kind has unsupported value " ++ qs kind.value⟩)
        = (.ok () : Except Verr Unit)) ↔
      ((match field n "kind" with
       | none => [reqErr "kind"]
       | some kind =>
         if isStr kind = false then [⟨kind.line, "kind must be string"⟩]
         else if kind.value == "Pod" then []
         else [⟨kind.line, "kind has unsupported value " ++ qs kind.value⟩])
        = ([] : List Verr)) := by
    cases hf : field n "kind" with
    | none => simp
    | some kind =>
      by_cases hs : isStr kind = false
      · simp [hs]
      · by_cases hv : (kind.value == "Pod") = true
        · simp [hs, hv]
        · simp [hs, hv]
  have bmeta : ((match field n "metadata" with
       | none => .error (reqErr "metadata")
       | some meta => validateMetadataF meta) = (.ok () : Except Verr Unit)) ↔
      ((match field n "metadata" with
       | none => [reqErr "metadata"]
       | some meta => validateMetadataA meta) = ([] : List Verr)) := by
    cases hf : field n "metadata" with
    | none => simp
    | some meta => exact metadataF_ok_iff_metadataA_nil meta
  have bspec : ((match field n "spec" with
       | none => .error (reqErr "spec")
       | some spec => validateSpecF spec) = (.ok () : Except Verr Unit)) ↔
      (((match field n "spec" with
        | none => [reqErr "spec"]
        | some spec => validateSpecA spec) = ([] : List Verr)) ∧
       ((match field n "spec" with
        | none => []
        | some spec => validateSpecContainersA spec) = ([] : List Verr))) := by
    cases hf : field n "spec" with
    | none => simp
    | some spec =>
      have hwf2 := hwf
      unfold docRRWfB at hwf2
      simp only [hf] at hwf2
      exact specF_ok_iff_specA_nil spec hwf2
  unfold validateTopLevelF validateTopA
  by_cases h1 : n.isMapping = false
  · simp [h1]
  · rw [if_neg h1, if_neg h1]
    simp only [seqE_ok, List.append_eq_nil]
    rw [bapi, bkind, bmeta, bspec]
    tauto

/-- Witness: the valid pod document satisfies the alignment condition
and both variants accept it. -/
theorem c10_amended_acceptance_witness :
    validateTopLevelF podDoc = .ok () ↔ validateTopA podDoc = [] :=
  c10_amended_acceptance podDoc (by decide)
